import Mathlib

/-!
Verification of the mactop telemetry pipeline.

This file gives a shallow embedding of the core of the mactop repository
(an Apple Silicon hardware monitor written in Go) and proves properties of
it.  The embedded parts are:

* the core topology resolver `GetCoreTopology` (package `app`),
* the inline interleaved topology computation of the headless exporter loop
  `runHeadless`,
* the CPU utilization estimator `GetCPUPercentages` (`main.go`),
* the plist metric extractors `parseCPUMetrics`, `parseGPUMetrics`,
  `parseNetDiskMetrics` (`main.go`),
* the stream framer: the custom `bufio.Scanner` split function installed in
  `collectMetrics` together with the scanner driver loop (`main.go`),
* the per-category metric channels of `main`/`collectMetrics` (capacity-1 Go
  channels used as single-slot mailboxes).

Go `float64` values are modelled as rationals (`ℚ`); all inputs reachable in
the claims use exact decimal arithmetic.  Go byte strings are modelled as
`List Char` (the source only ever compares ASCII bytes).  Fallible code
(runtime panics, `log.Fatalf` process aborts) is modelled with `Option`:
`none` means the Go code faulted / terminated the process.
-/

namespace Mactop

/-! ### Byte-string primitives

`firstIdx data pat` is `bytes.Index(data, pat)`: the index of the first
occurrence of `pat` as a contiguous sub-list of `data`, `none` when there is
no occurrence (Go returns `-1`).  `stringsContains` is `strings.Contains`. -/

/-- Index of the first occurrence of `pat` in `data` (Go `bytes.Index`;
`none` stands for Go's `-1`). -/
def firstIdx (data pat : List Char) : Option Nat :=
  if List.isPrefixOf pat data then some 0
  else
    match data with
    | [] => none
    | _ :: tl => (firstIdx tl pat).map (· + 1)

/-- Go `strings.Contains(s, pat)`. -/
def stringsContains (s pat : String) : Bool :=
  (firstIdx s.data pat.data).isSome

/-! ### Core topology resolver (`GetCoreTopology`, package `app`) -/

/-- `SystemInfo` from the `app` package.  Core counts are modelled as `Nat`
(the Go fields are `int`, populated from `sysctl` core counts; the claims
quantify over non-negative counts). -/
structure SystemInfo where
  Name : String
  CoreCount : Nat
  ECoreCount : Nat
  PCoreCount : Nat
  GPUCoreCount : Nat
  IsUltra : Bool
  IsInterleaved : Bool

/-- `CoreTopology` from the `app` package: the mapping of core indices to
P-cores and E-cores. -/
structure CoreTopology where
  PCoreIndices : List Nat
  ECoreIndices : List Nat
  Description : String

/-- `GetCoreTopology` from the `app` package.  Each Go loop
`for i := a; i < b; i++ { append(xs, i) }` is embedded as
`List.range' a (b - a)` (appending `a, a+1, ..., b-1` in order). -/
def GetCoreTopology (sysInfo : SystemInfo) : CoreTopology :=
  let totalCores := sysInfo.PCoreCount + sysInfo.ECoreCount
  let name := sysInfo.Name
  if stringsContains name "M3 Ultra" && sysInfo.PCoreCount == 24 && sysInfo.ECoreCount == 8 then
    { Description := "M3 Ultra 32-core: E-cores first within each die"
      PCoreIndices := List.range' 4 12 ++ List.range' 20 12
      ECoreIndices := List.range' 0 4 ++ List.range' 16 4 }
  else if stringsContains name "M3 Ultra" && sysInfo.PCoreCount == 20 && sysInfo.ECoreCount == 8 then
    { Description := "M3 Ultra 28-core: E-cores first within each die"
      PCoreIndices := List.range' 4 10 ++ List.range' 18 10
      ECoreIndices := List.range' 0 4 ++ List.range' 14 4 }
  else if stringsContains name "M4 Pro" then
    { Description := "M4 Pro: E-cores first, then P-cores"
      PCoreIndices := List.range' sysInfo.ECoreCount (totalCores - sysInfo.ECoreCount)
      ECoreIndices := List.range' 0 sysInfo.ECoreCount }
  else if stringsContains name "M1 Ultra" || stringsContains name "M2 Ultra" then
    let pCoresPerDie := sysInfo.PCoreCount / 2
    let eCoresPerDie := sysInfo.ECoreCount / 2
    { Description := "M1/M2 Ultra: P-cores first within each die"
      PCoreIndices :=
        List.range' 0 pCoresPerDie ++
          List.range' (pCoresPerDie + eCoresPerDie)
            (2 * pCoresPerDie + eCoresPerDie - (pCoresPerDie + eCoresPerDie))
      ECoreIndices :=
        List.range' pCoresPerDie (pCoresPerDie + eCoresPerDie - pCoresPerDie) ++
          List.range' (2 * pCoresPerDie + eCoresPerDie)
            (totalCores - (2 * pCoresPerDie + eCoresPerDie)) }
  else
    { Description := "Standard layout: P-cores first, then E-cores"
      PCoreIndices := List.range' 0 sysInfo.PCoreCount
      ECoreIndices := List.range' sysInfo.PCoreCount (totalCores - sysInfo.PCoreCount) }

/-! ### Inline topology computation of the headless exporter loop

`runHeadless` (second variant in the repository) re-derives the legacy
dual-die Ultra core classes inline instead of calling `GetCoreTopology`.
The loops below reproduce exactly which `percentages` indices that code
sums into the P-core average and into the E-core average; `n` is
`len(percentages)`.  A loop `for i := 0; i < k && start+i < n; i++` visits
`start + i` for the `i` in order until either bound fails, which (since
`start + i` is increasing) is the filtered initial segment below. -/

/-- Indices accumulated into `pcoreSum`/`ecoreSum` by the inline topology
code in `runHeadless` (`isInterleaved` branch and its `else` branch). -/
def inlineHeadlessClasses (sysInfo : SystemInfo) (n : Nat) : List Nat × List Nat :=
  let pCoreCount := sysInfo.PCoreCount
  let eCoreCount := sysInfo.ECoreCount
  let isInterleaved := sysInfo.IsUltra &&
    (stringsContains sysInfo.Name "M1" || stringsContains sysInfo.Name "M2")
  if isInterleaved then
    let pCorePerDie := pCoreCount / 2
    let eCorePerDie := eCoreCount / 2
    let pIdx := (List.range 2).flatMap (fun die =>
      let pCoreStart := die * (pCorePerDie + eCorePerDie)
      ((List.range pCorePerDie).map (fun i => pCoreStart + i)).filter (fun idx => idx < n))
    let eIdx := (List.range 2).flatMap (fun die =>
      let pCoreStart := die * (pCorePerDie + eCorePerDie)
      let eCoreStart := pCoreStart + pCorePerDie
      ((List.range eCorePerDie).map (fun i => eCoreStart + i)).filter (fun idx => idx < n))
    (pIdx, eIdx)
  else
    (((List.range pCoreCount).filter (fun i => i < n)),
      ((List.range eCoreCount).map (fun i => pCoreCount + i)).filter (fun idx => idx < n))

/-! ### Single-slot metric mailboxes

`main` creates `make(chan CPUMetrics, 1)` (and likewise for GPU and
network/disk): capacity-1 buffered channels.  `collectMetrics` publishes
with a non-blocking send

  select { case ch <- v: default: }

On a capacity-1 channel whose buffer is empty this stores `v`; if a value
is already buffered (unread), the send takes the `default` branch and the
new value is dropped.  We model the channel buffer as `Option α`. -/

/-- Non-blocking send on a capacity-1 Go channel (the
`select { case ch <- v: default: }` statement in `collectMetrics`). -/
def trySend {α : Type} (slot : Option α) (v : α) : Option α :=
  match slot with
  | none => some v
  | some w => some w

/-! ### CPU utilization estimator (`GetCPUPercentages`, `main.go`)

State: the package-level variables `firstRun` and `lastCPUTimes`.  The
per-core tick query `GetCPUUsage` is an external kernel call; the estimator
is embedded as an explicit state transition taking the queried
`currentTimes` as input.  Ticks are `float64` in Go (converted from
integral tick counters), modelled as `ℚ`.

The Go loop indexes `lastCPUTimes[i]` for every `i < len(currentTimes)`;
when `len(currentTimes) > len(lastCPUTimes)` this panics with index out of
range, which we model as `none`.  When `len(currentTimes) ≤
len(lastCPUTimes)` the loop computes one percentage per current core from
`currentTimes[i]` and `lastCPUTimes[i]`, which is exactly
`List.zipWith corePercentage currentTimes lastCPUTimes`. -/

/-- `CPUUsage` from `main.go`. -/
structure CPUUsage where
  User : ℚ
  System : ℚ
  Idle : ℚ
  Nice : ℚ

/-- The package-level estimator state (`firstRun`, `lastCPUTimes`). -/
structure EstimatorState where
  firstRun : Bool
  lastCPUTimes : List CPUUsage

/-- Loop body of `GetCPUPercentages` for one core: delta computation,
division guarded by `totalDelta > 0`, then the two clamping ifs. -/
def corePercentage (cur last : CPUUsage) : ℚ :=
  let totalDelta := (cur.User - last.User) + (cur.System - last.System) +
    (cur.Idle - last.Idle) + (cur.Nice - last.Nice)
  let activeDelta := (cur.User - last.User) + (cur.System - last.System) +
    (cur.Nice - last.Nice)
  let p := if totalDelta > 0 then activeDelta / totalDelta * 100 else 0
  if p < 0 then 0 else if p > 100 then 100 else p

/-- `GetCPUPercentages` from `main.go`, as a state transition on the
package-level state, with the tick query's result passed in as
`currentTimes`.  `none` models the index-out-of-range panic described
above. -/
def GetCPUPercentages (st : EstimatorState) (currentTimes : List CPUUsage) :
    Option (List ℚ × EstimatorState) :=
  if st.firstRun then
    some (List.replicate currentTimes.length 0, ⟨false, currentTimes⟩)
  else if currentTimes.length ≤ st.lastCPUTimes.length then
    some (List.zipWith corePercentage currentTimes st.lastCPUTimes, ⟨false, currentTimes⟩)
  else
    none

/-! ### Decoded plist samples and the metric extractors

`powermetrics` output is decoded by `plist.NewDecoder(...).Decode(&data)`
into `map[string]interface{}`.  We model the dynamically-typed decoded tree
as the tagged variant `PValue`; a decoded mapping is an association list
with distinct keys (lookup takes the first match).  A Go type assertion
`v, ok := x.(T)` is a match on the corresponding constructor. -/

/-- A decoded plist value (Go `interface{}` after plist decoding). -/
inductive PValue where
  | str : String → PValue
  | num : ℚ → PValue
  | bool : Bool → PValue
  | list : List PValue → PValue
  | dict : List (String × PValue) → PValue

/-- Lookup in a decoded plist mapping (Go `data[key]`; `none` when the key
is absent). -/
def plookup (d : List (String × PValue)) (k : String) : Option PValue :=
  (d.find? (fun p => p.1 == k)).map (fun p => p.2)

/-- Go `int(q)` on a `float64`: truncation toward zero. -/
def ratTruncToInt (q : ℚ) : Int :=
  q.num.tdiv (q.den : Int)

/-- `CPUMetrics` from `main.go`. -/
structure CPUMetrics where
  EClusterActive : Int
  EClusterFreqMHz : Int
  PClusterActive : Int
  PClusterFreqMHz : Int
  ECores : List Int
  PCores : List Int
  CoreMetrics : List (String × Int)
  CPUW : ℚ
  GPUW : ℚ
  PackageW : ℚ
  CoreUsages : List ℚ
  Throttled : Bool

/-- The Go zero value `CPUMetrics{}` (all fields zero / nil). -/
def zeroCPUMetrics : CPUMetrics :=
  ⟨0, 0, 0, 0, [], [], [], 0, 0, 0, [], false⟩

/-- `NewCPUMetrics` from `main.go` (zero fields with the map and slices
allocated empty; identical to the zero value in this model). -/
def NewCPUMetrics : CPUMetrics :=
  { zeroCPUMetrics with CoreMetrics := [], ECores := [], PCores := [] }

/-- `GPUMetrics` from `main.go`. -/
structure GPUMetrics where
  FreqMHz : Int
  Active : Int

/-- The Go zero value `GPUMetrics{}`. -/
def zeroGPUMetrics : GPUMetrics := ⟨0, 0⟩

/-- `NetDiskMetrics` from `main.go`. -/
structure NetDiskMetrics where
  OutPacketsPerSec : ℚ
  OutBytesPerSec : ℚ
  InPacketsPerSec : ℚ
  InBytesPerSec : ℚ
  ReadOpsPerSec : ℚ
  WriteOpsPerSec : ℚ
  ReadKBytesPerSec : ℚ
  WriteKBytesPerSec : ℚ

/-- The Go zero value `NetDiskMetrics{}`. -/
def zeroNetDiskMetrics : NetDiskMetrics := ⟨0, 0, 0, 0, 0, 0, 0, 0⟩

/-- `parseCPUMetrics` from `main.go`.  The function aborts the whole
process via `stderrLogger.Fatalf` (which calls `os.Exit(1)`) when the
`processor` entry is not a mapping or the `thermal_pressure` entry is not a
string; `none` models that process termination.  (The `return cpuMetrics`
after the first `Fatalf` is dead code: `log.Fatalf` never returns.) -/
def parseCPUMetrics (data : List (String × PValue)) (cpuMetrics : CPUMetrics) :
    Option CPUMetrics :=
  match plookup data "processor" with
  | some (.dict processor) =>
    match plookup data "thermal_pressure" with
    | some (.str thermal) =>
      let m0 := { cpuMetrics with Throttled := thermal ≠ "Nominal",
                                  ECores := [], PCores := [] }
      let m1 := match plookup processor "cpu_power" with
        | some (.num cpuEnergy) => { m0 with CPUW := cpuEnergy / 1000 }
        | _ => m0
      let m2 := match plookup processor "gpu_power" with
        | some (.num gpuEnergy) => { m1 with GPUW := gpuEnergy / 1000 }
        | _ => m1
      let m3 := match plookup processor "combined_power" with
        | some (.num combinedPower) => { m2 with PackageW := combinedPower / 1000 }
        | _ => m2
      some m3
    | _ => none
  | _ => none

/-- `parseGPUMetrics` from `main.go` (total; missing entries leave the zero
value in place). -/
def parseGPUMetrics (data : List (String × PValue)) : GPUMetrics :=
  match plookup data "gpu" with
  | some (.dict gpu) =>
    let m1 := match plookup gpu "freq_hz" with
      | some (.num freqHz) => { zeroGPUMetrics with FreqMHz := ratTruncToInt freqHz }
      | _ => zeroGPUMetrics
    match plookup gpu "idle_ratio" with
    | some (.num idleRatio) => { m1 with Active := ratTruncToInt ((1 - idleRatio) * 100) }
    | _ => m1
  | _ => zeroGPUMetrics

/-- One optional field of `parseNetDiskMetrics`: overwrite `set v` applied
when the entry is a number, identity otherwise. -/
def setIfNum (d : List (String × PValue)) (k : String) (set : ℚ → NetDiskMetrics → NetDiskMetrics)
    (m : NetDiskMetrics) : NetDiskMetrics :=
  match plookup d k with
  | some (.num rate) => set rate m
  | _ => m

/-- `parseNetDiskMetrics` from `main.go` (total; missing entries leave the
zero value in place). -/
def parseNetDiskMetrics (data : List (String × PValue)) : NetDiskMetrics :=
  let m0 := zeroNetDiskMetrics
  let m4 := match plookup data "network" with
    | some (.dict network) =>
      (setIfNum network "opacket_rate" (fun r m => { m with OutPacketsPerSec := r })
        (setIfNum network "ipacket_rate" (fun r m => { m with InPacketsPerSec := r })
          (setIfNum network "obyte_rate" (fun r m => { m with OutBytesPerSec := r / 1000 })
            (setIfNum network "ibyte_rate" (fun r m => { m with InBytesPerSec := r / 1000 })
              m0))))
    | _ => m0
  match plookup data "disk" with
  | some (.dict disk) =>
    (setIfNum disk "wops_per_s" (fun r m => { m with WriteOpsPerSec := r })
      (setIfNum disk "rops_per_s" (fun r m => { m with ReadOpsPerSec := r })
        (setIfNum disk "wbytes_per_s" (fun r m => { m with WriteKBytesPerSec := r / 1000 })
          (setIfNum disk "rbytes_per_s" (fun r m => { m with ReadKBytesPerSec := r / 1000 })
            m4))))
  | _ => m4

/-! ### The three metric mailboxes of `collectMetrics`

`main` creates the three capacity-1 channels and hands them to
`collectMetrics`, which starts by sending one zero-valued struct into each
(ordinary blocking sends; the channels are freshly created and empty, so
each send immediately stores its value), and only then constructs and
starts the `powermetrics` subprocess. -/

/-- The buffers of the three freshly created capacity-1 channels of `main`
(`make(chan CPUMetrics, 1)` etc.): all empty. -/
structure MetricsChans where
  cpu : Option CPUMetrics
  gpu : Option GPUMetrics
  netdisk : Option NetDiskMetrics

/-- The channels as created by `main` (empty buffers). -/
def mkMetricsChans : MetricsChans := ⟨none, none, none⟩

/-- A blocking send on a capacity-1 channel with an empty buffer stores the
value (the situation of the three initial sends in `collectMetrics`; with a
non-empty buffer the Go send would block, which cannot happen there because
nothing has been sent before). -/
def sendOnEmpty {α : Type} (slot : Option α) (v : α) : Option α :=
  match slot with
  | none => some v
  | some w => some w

/-- The prelude of `collectMetrics`: the three zero-struct sends executed
before the `powermetrics` subprocess command is even constructed. -/
def collectMetricsPrelude (c : MetricsChans) : MetricsChans :=
  { c with
    cpu := sendOnEmpty c.cpu zeroCPUMetrics
    gpu := sendOnEmpty c.gpu zeroGPUMetrics
    netdisk := sendOnEmpty c.netdisk zeroNetDiskMetrics }

/-! ### The stream framer

`collectMetrics` reads the subprocess stdout through a `bufio.Scanner`
with a custom split function.  The split function searches the buffered
data for the start marker (first choice `"<?xml"`, fallback `"<plist"`)
and, from the start marker on, for the end marker `"</plist>"`; a complete
record is returned as one token with everything before its start marker
discarded.  The scanner is given a fixed 10 MB buffer and the same value
as its maximum token size (`scanner.Buffer(make([]byte, bufferSize),
bufferSize)` with `bufferSize = 10 * 1024 * 1024`).

The scanner driver (`bufio.Scanner.Scan`) repeatedly applies the split
function to the buffered data, consuming `advance` bytes each time.  When
the split function answers `(0, nil)` (need more data) the driver must
read from the pipe: if the unconsumed buffered data already fills the
whole 10 MB buffer it cannot, and `Scan` fails with `ErrTooLong` — the
`for scanner.Scan()` loop in `collectMetrics` then exits and no further
token is ever emitted.  Otherwise it reads at most the free buffer space.
At end of input it re-applies the split function with `atEOF = true`
until it stops producing tokens (unless the buffer was already full, in
which case `ErrTooLong` again fires first).

`drainAux` is the token-draining loop on a fixed buffer (the cap plays no
role there: a complete token is returned from a full buffer just fine);
the `fuel` parameter only bounds the recursion and is always called with
more fuel than the buffer length (each iteration either stops or consumes
at least one byte).  `feedAux` feeds one pipe chunk into the scanner in
reads bounded by the free buffer space, with the full-buffer `ErrTooLong`
check before each read; its `Bool` result is the error flag.
`scanChunks` runs a whole list of read chunks through the scanner,
including the final `atEOF` round and its preceding full-buffer check. -/

/-- The `"<?xml"` start marker. -/
def xmlMarker : List Char := "<?xml".data

/-- The `"<plist"` fallback start marker. -/
def plistMarker : List Char := "<plist".data

/-- The `"</plist>"` end marker. -/
def endMarker : List Char := "</plist>".data

/-- The custom split function installed on the scanner in `collectMetrics`.
Result: `(advance, token?)`; `none` is Go's `nil` token. -/
def splitFunc (data : List Char) (atEOF : Bool) : Nat × Option (List Char) :=
  if atEOF ∧ data.length = 0 then (0, none)
  else
    let start? := match firstIdx data xmlMarker with
      | some s => some s
      | none => firstIdx data plistMarker
    match start? with
    | some start =>
      match firstIdx (data.drop start) endMarker with
      | some e => (start + e + 8, some ((data.drop start).take (e + 8)))
      | none => if atEOF then (data.length, some (data.drop start)) else (0, none)
    | none => if atEOF then (data.length, none) else (0, none)

/-- The scanner driver loop on one buffer: apply `splitFunc`, emit the
token (if any), consume `advance` bytes, and repeat until the split
function answers `(0, nil)` (need more data / done). -/
def drainAux : Nat → List Char → Bool → List (List Char) × List Char
  | 0, buf, _ => ([], buf)
  | Nat.succ fuel, buf, atEOF =>
    match splitFunc buf atEOF with
    | (adv, tok?) =>
      if adv = 0 ∧ tok? = none then ([], buf)
      else
        match tok? with
        | some tok =>
          let rest := drainAux fuel (buf.drop adv) atEOF
          (tok :: rest.1, rest.2)
        | none => drainAux fuel (buf.drop adv) atEOF

/-- The scanner's buffer size and maximum token size: `bufferSize = 10 *
1024 * 1024` in `collectMetrics`, installed with `scanner.Buffer`. -/
def maxScanTokenSize : Nat := 10 * 1024 * 1024

/-- Feed one pipe chunk into the scanner.  Mirrors the read path of
`bufio.Scanner.Scan`: when more data is needed and the unconsumed buffer
already holds `maxScanTokenSize` bytes, `Scan` fails with `ErrTooLong`
(the `true` error flag — scanning stops, nothing more is emitted);
otherwise one read takes at most the free buffer space, and the drained
tokens are appended.  The `fuel` parameter bounds the recursion and is
always called with more fuel than the chunk length (every read consumes
at least one byte of the chunk). -/
def feedAux : Nat → List (List Char) → List Char → List Char →
    (List (List Char) × List Char) × Bool
  | 0, tokens, buf, _ => ((tokens, buf), true)
  | Nat.succ fuel, tokens, buf, chunk =>
    if chunk.isEmpty then ((tokens, buf), false)
    else if maxScanTokenSize ≤ buf.length then ((tokens, buf), true)
    else
      let n := min (maxScanTokenSize - buf.length) chunk.length
      let buf2 := buf ++ chunk.take n
      let r := drainAux (buf2.length + 1) buf2 false
      feedAux fuel (tokens ++ r.1) r.2 (chunk.drop n)

/-- The whole scanner run: each pipe chunk is fed through `feedAux` (reads
bounded by the free buffer space, draining every complete record, failing
with `ErrTooLong` on a full undrainable buffer); once an error is raised
the scan loop has exited and later chunks are ignored.  When the input is
exhausted the driver needs data one last time — after the same full-buffer
check — and then runs the split function in `atEOF` mode. -/
def scanChunks (chunks : List (List Char)) : List (List Char) :=
  let fed := chunks.foldl
    (fun (acc : (List (List Char) × List Char) × Bool) chunk =>
      if acc.2 then acc else feedAux (chunk.length + 1) acc.1.1 acc.1.2 chunk)
    (([], []), false)
  if fed.2 then fed.1.1
  else if maxScanTokenSize ≤ fed.1.2.length then fed.1.1
  else fed.1.1 ++ (drainAux (fed.1.2.length + 1) fed.1.2 true).1

/-! ## Theorems -/

/-! ### C2: mailbox publish semantics -/

/-- C2 counterexample: the claim says publishing `v1` then `v2` to a
category mailbox without an intervening read leaves the mailbox holding
exactly `v2`.  On the capacity-1 Go channels with non-blocking
`select`/`default` sends, the second publish is dropped and the mailbox
still holds `v1`: publishing `1` then `2` leaves `some 1`, not `some 2`. -/
theorem mailbox_overwrite_counterexample :
    trySend (trySend (none : Option Nat) 1) 2 = some 1 ∧
      trySend (trySend (none : Option Nat) 1) 2 ≠ some 2 := by
  constructor
  · rfl
  · decide

/-- C2 amended: publishing `v1` and then `v2` to a category mailbox
without an intervening read leaves the mailbox holding exactly `v1`; the
second value is silently dropped (first-value-wins until read).  The
publish operation never blocks the producer: it is a total function that
always yields a full mailbox. -/
theorem mailbox_first_value_wins (α : Type) (v1 v2 : α) :
    trySend (trySend (none : Option α) v1) v2 = some v1 ∧
      ∀ (slot : Option α) (v : α), (trySend slot v).isSome = true := by
  constructor
  · rfl
  · intro slot v
    cases slot <;> rfl

/-! ### C10: initial zero-valued publish before the subprocess starts -/

/-- C10: before the `powermetrics` subprocess is constructed,
`collectMetrics` publishes exactly one zero-valued snapshot into each of
the three freshly created category mailboxes, so each mailbox holds the
all-zero metrics struct of its category (a value not derived from any
decoded record). -/
theorem collectMetrics_initial_zero_publish :
    (collectMetricsPrelude mkMetricsChans).cpu = some zeroCPUMetrics ∧
    (collectMetricsPrelude mkMetricsChans).gpu = some zeroGPUMetrics ∧
    (collectMetricsPrelude mkMetricsChans).netdisk = some zeroNetDiskMetrics ∧
    zeroCPUMetrics.CPUW = 0 ∧ zeroCPUMetrics.GPUW = 0 ∧ zeroCPUMetrics.PackageW = 0 ∧
    zeroCPUMetrics.Throttled = false ∧ zeroGPUMetrics.FreqMHz = 0 ∧
    zeroGPUMetrics.Active = 0 ∧ zeroNetDiskMetrics.InBytesPerSec = 0 ∧
    zeroNetDiskMetrics.OutBytesPerSec = 0 := by
  exact ⟨rfl, rfl, rfl, rfl, rfl, rfl, rfl, rfl, rfl, rfl, rfl⟩

/-! ### C3 / C4: the CPU utilization estimator -/

/-- Componentwise tick monotonicity between the stored snapshot entry `l`
and the current entry `c` (tick counters are cumulative). -/
def TicksMono (c l : CPUUsage) : Prop :=
  l.User ≤ c.User ∧ l.System ≤ c.System ∧ l.Idle ≤ c.Idle ∧ l.Nice ≤ c.Nice

/-- The per-core utilization formula as the specification states it:
`100 × (Δuser + Δsystem + Δnice) / (Δuser + Δsystem + Δnice + Δidle)`
clamped to `[0, 100]`, and `0` when the denominator is zero. -/
def specCorePercentage (c l : CPUUsage) : ℚ :=
  let a := (c.User - l.User) + (c.System - l.System) + (c.Nice - l.Nice)
  let t := a + (c.Idle - l.Idle)
  if t = 0 then 0 else max 0 (min 100 (100 * a / t))

/-- Under monotone ticks the loop body of `GetCPUPercentages` computes
exactly the specification's clamped ratio. -/
theorem corePercentage_eq_spec (c l : CPUUsage) (h : TicksMono c l) :
    corePercentage c l = specCorePercentage c l := by
  obtain ⟨hu, hs, hi, hn⟩ := h
  unfold corePercentage specCorePercentage
  dsimp only
  have ht : (c.User - l.User) + (c.System - l.System) + (c.Idle - l.Idle) +
      (c.Nice - l.Nice) =
      ((c.User - l.User) + (c.System - l.System) + (c.Nice - l.Nice)) +
        (c.Idle - l.Idle) := by ring
  rw [ht]
  set a := (c.User - l.User) + (c.System - l.System) + (c.Nice - l.Nice) with ha_def
  set t := a + (c.Idle - l.Idle) with ht_def
  have ha : 0 ≤ a := by rw [ha_def]; linarith
  have hat : a ≤ t := by rw [ht_def]; linarith
  have ht0 : 0 ≤ t := le_trans ha hat
  rcases eq_or_lt_of_le ht0 with h0 | hpos
  · rw [← h0]
    norm_num
  · have hne : t ≠ 0 := ne_of_gt hpos
    simp only [gt_iff_lt, hpos, if_true]
    have hp0 : 0 ≤ a / t * 100 := by positivity
    have hp100 : a / t * 100 ≤ 100 := by
      rw [div_mul_eq_mul_div, div_le_iff₀ hpos]
      nlinarith
    have hcomm : 100 * a / t = a / t * 100 := by ring
    rw [if_neg (not_lt.mpr hp0), if_neg (not_lt.mpr hp100), if_neg hne, hcomm,
      min_eq_right hp100, max_eq_right hp0]

/-- C3: on the first call (`firstRun`) the estimator stores the snapshot
and returns an all-zero array whose length equals the current core count;
on a later call with an unchanged core count and monotone cumulative
ticks, every core's percentage equals
`100 × (Δuser + Δsystem + Δnice) / (Δuser + Δsystem + Δnice + Δidle)`
clamped to `[0, 100]`, with a zero denominator yielding `0` (the result is
always a defined rational, never a NaN: the division is guarded). -/
theorem getCPUPercentages_estimator_correct :
    (∀ (st : EstimatorState) (cur : List CPUUsage), st.firstRun = true →
      GetCPUPercentages st cur =
        some (List.replicate cur.length 0, ⟨false, cur⟩)) ∧
    (∀ (st : EstimatorState) (cur : List CPUUsage), st.firstRun = false →
      List.Forall₂ TicksMono cur st.lastCPUTimes →
      GetCPUPercentages st cur =
        some (List.zipWith specCorePercentage cur st.lastCPUTimes, ⟨false, cur⟩)) := by
  constructor
  · intro st cur hf
    unfold GetCPUPercentages
    rw [if_pos hf]
  · intro st cur hf hmono
    unfold GetCPUPercentages
    rw [if_neg (by simp [hf]), if_pos (le_of_eq hmono.length_eq)]
    have hz : List.zipWith corePercentage cur st.lastCPUTimes =
        List.zipWith specCorePercentage cur st.lastCPUTimes := by
      apply List.zipWith_congr
      exact hmono.imp (fun a b h => corePercentage_eq_spec a b h)
    rw [hz]

/-- C3 witness: a first call with one core returns `[0]` and stores the
snapshot; a later call with deltas (user 10, system 5, idle 85, nice 0)
yields exactly `15`. -/
theorem getCPUPercentages_estimator_correct_witness :
    GetCPUPercentages ⟨true, []⟩ [⟨1, 2, 3, 4⟩] =
        some ([0], ⟨false, [⟨1, 2, 3, 4⟩]⟩) ∧
    GetCPUPercentages ⟨false, [⟨0, 0, 0, 0⟩]⟩ [⟨10, 5, 85, 0⟩] =
        some ([15], ⟨false, [⟨10, 5, 85, 0⟩]⟩) := by
  constructor
  · have h := getCPUPercentages_estimator_correct.1 ⟨true, []⟩ [⟨1, 2, 3, 4⟩] rfl
    simpa using h
  · have h := getCPUPercentages_estimator_correct.2 ⟨false, [⟨0, 0, 0, 0⟩]⟩
      [⟨10, 5, 85, 0⟩] rfl (by
        constructor
        · refine ⟨by norm_num, by norm_num, by norm_num, by norm_num⟩
        · exact List.Forall₂.nil)
    rw [h]
    norm_num [specCorePercentage]

/-- C4 counterexample: the claim says that when the reported core count
differs from the stored snapshot's length the estimator resets to warm-up
and returns a zero-filled array of the new length.  In the code there is
no such reset: with a stored 1-core snapshot and a 2-core query the loop
indexes `lastCPUTimes[1]` out of range and panics (modelled as `none`). -/
theorem estimator_no_reset_counterexample :
    GetCPUPercentages ⟨false, [⟨0, 0, 0, 0⟩]⟩ [⟨1, 0, 0, 0⟩, ⟨1, 0, 0, 0⟩] = none ∧
      ∀ out, GetCPUPercentages ⟨false, [⟨0, 0, 0, 0⟩]⟩ [⟨1, 0, 0, 0⟩, ⟨1, 0, 0, 0⟩] ≠
        some out := by
  constructor
  · rfl
  · intro out h
    simp [GetCPUPercentages] at h

/-- C4 amended: the estimator never resets to warm-up on a core-count
change.  If the reported core count grows beyond the stored snapshot's
length the call faults (index out of range, modelled `none`); if it
shrinks (or stays equal) the call computes the reported cores' percentages
against the same-index entries of the stale snapshot — no zero-filled
warm-up result is produced. -/
theorem estimator_core_count_change (st : EstimatorState) (cur : List CPUUsage)
    (hf : st.firstRun = false) :
    (st.lastCPUTimes.length < cur.length → GetCPUPercentages st cur = none) ∧
    (cur.length ≤ st.lastCPUTimes.length →
      GetCPUPercentages st cur =
        some (List.zipWith corePercentage cur st.lastCPUTimes, ⟨false, cur⟩)) := by
  constructor
  · intro hgrow
    unfold GetCPUPercentages
    rw [if_neg (by simp [hf]), if_neg (by omega)]
  · intro hshrink
    unfold GetCPUPercentages
    rw [if_neg (by simp [hf]), if_pos hshrink]

/-- C4 witness: a grown core count faults; a shrunk core count computes
against the stale baseline (deltas user 2, idle 2 give 50%), instead of
the warm-up zero array the claim predicted. -/
theorem estimator_core_count_change_witness :
    GetCPUPercentages ⟨false, [⟨0, 0, 0, 0⟩]⟩ [⟨2, 0, 2, 0⟩, ⟨2, 0, 2, 0⟩] = none ∧
    GetCPUPercentages ⟨false, [⟨0, 0, 0, 0⟩, ⟨0, 0, 0, 0⟩]⟩ [⟨2, 0, 2, 0⟩] =
      some ([50], ⟨false, [⟨2, 0, 2, 0⟩]⟩) := by
  constructor
  · exact (estimator_core_count_change ⟨false, [⟨0, 0, 0, 0⟩]⟩
      [⟨2, 0, 2, 0⟩, ⟨2, 0, 2, 0⟩] rfl).1 (by norm_num)
  · have h := (estimator_core_count_change ⟨false, [⟨0, 0, 0, 0⟩, ⟨0, 0, 0, 0⟩]⟩
      [⟨2, 0, 2, 0⟩] rfl).2 (by norm_num)
    rw [h]
    norm_num [corePercentage]

/-! ### C5: totality of the metric extractors -/

/-- C5 counterexample: the claim says every extractor is total and never
terminates the process, even when the `processor` or `thermal_pressure`
entry is missing.  `parseCPUMetrics` on a decoded sample with no
`processor` entry calls `stderrLogger.Fatalf`, i.e. `os.Exit(1)`
(modelled `none`): the process is terminated, no metrics struct is
returned. -/
theorem extractors_total_counterexample :
    parseCPUMetrics [] NewCPUMetrics = none ∧
      ∀ m, parseCPUMetrics [] NewCPUMetrics ≠ some m := by
  exact ⟨rfl, fun m h => by simp [parseCPUMetrics, plookup] at h⟩

/-- C5 amended: `parseGPUMetrics` and `parseNetDiskMetrics` are total with
per-field zero-value degradation, but `parseCPUMetrics` terminates the
process (`log.Fatalf`) unless the sample has both a `processor` mapping
and a `thermal_pressure` string; when both are present its optional power
fields degrade per-field to their zero values. -/
theorem extractors_partial_totality :
    (∀ data m, (parseCPUMetrics data m).isSome = true ↔
      ((∃ d, plookup data "processor" = some (.dict d)) ∧
        (∃ s, plookup data "thermal_pressure" = some (.str s)))) ∧
    (∀ data, plookup data "gpu" = none → parseGPUMetrics data = zeroGPUMetrics) ∧
    (∀ data d, plookup data "gpu" = some (.dict d) → plookup d "freq_hz" = none →
      (parseGPUMetrics data).FreqMHz = 0) ∧
    (∀ data, plookup data "network" = none → plookup data "disk" = none →
      parseNetDiskMetrics data = zeroNetDiskMetrics) ∧
    (∀ data d, plookup data "processor" = some (.dict d) →
      plookup data "thermal_pressure" = some (.str "Nominal") →
      plookup d "cpu_power" = none →
      (parseCPUMetrics data NewCPUMetrics).map (fun m => m.CPUW) = some 0) := by
  refine ⟨?_, ?_, ?_, ?_, ?_⟩
  · intro data m
    cases hp : plookup data "processor" with
    | none => simp [parseCPUMetrics, hp]
    | some v =>
      cases v with
      | dict processor =>
        cases ht : plookup data "thermal_pressure" with
        | none => simp [parseCPUMetrics, hp, ht]
        | some w =>
          cases w <;> simp [parseCPUMetrics, hp, ht]
      | str s => simp [parseCPUMetrics, hp]
      | num q => simp [parseCPUMetrics, hp]
      | bool b => simp [parseCPUMetrics, hp]
      | list l => simp [parseCPUMetrics, hp]
  · intro data h
    simp [parseGPUMetrics, h]
  · intro data d h hf
    cases hi : plookup d "idle_ratio" with
    | none => simp [parseGPUMetrics, h, hf, hi, zeroGPUMetrics]
    | some w => cases w <;> simp [parseGPUMetrics, h, hf, hi, zeroGPUMetrics]
  · intro data h1 h2
    simp [parseNetDiskMetrics, h1, h2]
  · intro data d h1 h2 hc
    cases hg : plookup d "gpu_power" with
    | none =>
      cases hcb : plookup d "combined_power" with
      | none => simp [parseCPUMetrics, h1, h2, hc, hg, hcb, NewCPUMetrics, zeroCPUMetrics]
      | some w =>
        cases w <;> simp [parseCPUMetrics, h1, h2, hc, hg, hcb, NewCPUMetrics, zeroCPUMetrics]
    | some w =>
      cases w with
      | num q =>
        cases hcb : plookup d "combined_power" with
        | none => simp [parseCPUMetrics, h1, h2, hc, hg, hcb, NewCPUMetrics, zeroCPUMetrics]
        | some w2 =>
          cases w2 <;> simp [parseCPUMetrics, h1, h2, hc, hg, hcb, NewCPUMetrics, zeroCPUMetrics]
      | str s =>
        cases hcb : plookup d "combined_power" with
        | none => simp [parseCPUMetrics, h1, h2, hc, hg, hcb, NewCPUMetrics, zeroCPUMetrics]
        | some w2 =>
          cases w2 <;> simp [parseCPUMetrics, h1, h2, hc, hg, hcb, NewCPUMetrics, zeroCPUMetrics]
      | bool b =>
        cases hcb : plookup d "combined_power" with
        | none => simp [parseCPUMetrics, h1, h2, hc, hg, hcb, NewCPUMetrics, zeroCPUMetrics]
        | some w2 =>
          cases w2 <;> simp [parseCPUMetrics, h1, h2, hc, hg, hcb, NewCPUMetrics, zeroCPUMetrics]
      | list l =>
        cases hcb : plookup d "combined_power" with
        | none => simp [parseCPUMetrics, h1, h2, hc, hg, hcb, NewCPUMetrics, zeroCPUMetrics]
        | some w2 =>
          cases w2 <;> simp [parseCPUMetrics, h1, h2, hc, hg, hcb, NewCPUMetrics, zeroCPUMetrics]
      | dict dd =>
        cases hcb : plookup d "combined_power" with
        | none => simp [parseCPUMetrics, h1, h2, hc, hg, hcb, NewCPUMetrics, zeroCPUMetrics]
        | some w2 =>
          cases w2 <;> simp [parseCPUMetrics, h1, h2, hc, hg, hcb, NewCPUMetrics, zeroCPUMetrics]

/-- C5 witness: with both required entries present extraction succeeds; a
sample with no `gpu` entry extracts the zero GPU struct; a sample with
neither `network` nor `disk` extracts the zero net/disk struct; a present
`processor` mapping lacking `cpu_power` leaves CPU power at its zero
value. -/
theorem extractors_partial_totality_witness :
    (parseCPUMetrics [("processor", .dict []), ("thermal_pressure", .str "Nominal")]
      NewCPUMetrics).isSome = true ∧
    parseGPUMetrics [] = zeroGPUMetrics ∧
    parseNetDiskMetrics [] = zeroNetDiskMetrics ∧
    (parseCPUMetrics [("processor", .dict []), ("thermal_pressure", .str "Nominal")]
      NewCPUMetrics).map (fun m => m.CPUW) = some 0 := by
  refine ⟨?_, ?_, ?_, ?_⟩
  · exact (extractors_partial_totality.1 _ NewCPUMetrics).mpr
      ⟨⟨[], by simp [plookup]⟩, ⟨"Nominal", by simp [plookup]⟩⟩
  · exact extractors_partial_totality.2.1 [] (by simp [plookup])
  · exact extractors_partial_totality.2.2.2.1 [] (by simp [plookup]) (by simp [plookup])
  · exact extractors_partial_totality.2.2.2.2 _ [] (by simp [plookup])
      (by simp [plookup]) (by simp [plookup])

/-! ### C8: exact unit-conversion divisors -/

/-- C8: the extractors' unit conversions are exact fixed divisors.  A
well-formed record with `cpu_power = 5000`, `gpu_power = 2000` and network
`ibyte_rate = 1000000` extracts CPU power `5`, GPU power `2` and
network-in throughput `1000`; in general each of these published values is
the raw value divided by exactly `1000`. -/
theorem unit_conversion_divisors :
    (parseCPUMetrics
        [("processor", .dict [("cpu_power", .num 5000), ("gpu_power", .num 2000)]),
         ("thermal_pressure", .str "Nominal"),
         ("network", .dict [("ibyte_rate", .num 1000000)])]
        NewCPUMetrics).map (fun m => (m.CPUW, m.GPUW)) = some (5, 2) ∧
    (parseNetDiskMetrics
        [("processor", .dict [("cpu_power", .num 5000), ("gpu_power", .num 2000)]),
         ("thermal_pressure", .str "Nominal"),
         ("network", .dict [("ibyte_rate", .num 1000000)])]).InBytesPerSec = 1000 ∧
    (∀ v : ℚ, (parseCPUMetrics
        [("processor", .dict [("cpu_power", .num v)]), ("thermal_pressure", .str "Nominal")]
        NewCPUMetrics).map (fun m => m.CPUW) = some (v / 1000)) ∧
    (∀ v : ℚ, (parseCPUMetrics
        [("processor", .dict [("gpu_power", .num v)]), ("thermal_pressure", .str "Nominal")]
        NewCPUMetrics).map (fun m => m.GPUW) = some (v / 1000)) ∧
    (∀ v : ℚ, (parseNetDiskMetrics
        [("network", .dict [("ibyte_rate", .num v)])]).InBytesPerSec = v / 1000) := by
  refine ⟨?_, ?_, ?_, ?_, ?_⟩
  · simp [parseCPUMetrics, plookup]
    norm_num
  · simp [parseNetDiskMetrics, setIfNum, plookup, zeroNetDiskMetrics]
    norm_num
  · intro v
    simp [parseCPUMetrics, plookup]
  · intro v
    simp [parseCPUMetrics, plookup]
  · intro v
    simp [parseNetDiskMetrics, setIfNum, plookup, zeroNetDiskMetrics]

/-! ### C1: the topology partition invariant -/

/-- Four interval blocks `[0,a) ++ [a+b, a+b+c) ++ [a, a+b) ++ [a+b+c,
a+b+c+d)` are a permutation of `[0, a+b+c+d)`. -/
theorem range'_quad_perm (a b c d : Nat) :
    ((List.range' 0 a ++ List.range' (a + b) c) ++
      (List.range' a b ++ List.range' (a + b + c) d)).Perm
      (List.range (a + b + c + d)) := by
  have e1 : List.range' 0 a ++ List.range' a b = List.range' 0 (a + b) := by
    have h := List.range'_append 0 a b 1
    simp only [Nat.one_mul, Nat.zero_add] at h
    rw [h]
    congr 1
    omega
  have e2 : List.range' (a + b) c ++ List.range' (a + b + c) d =
      List.range' (a + b) (c + d) := by
    have h := List.range'_append (a + b) c d 1
    simp only [Nat.one_mul] at h
    rw [h]
    congr 1
    omega
  have e3 : List.range' 0 (a + b) ++ List.range' (a + b) (c + d) =
      List.range' 0 (a + b + (c + d)) := by
    have h := List.range'_append 0 (a + b) (c + d) 1
    simp only [Nat.one_mul, Nat.zero_add] at h
    rw [h]
    congr 1
    omega
  have heq1 : (List.range' 0 a ++ List.range' (a + b) c) ++
      (List.range' a b ++ List.range' (a + b + c) d) =
      List.range' 0 a ++ ((List.range' (a + b) c ++ List.range' a b) ++
        List.range' (a + b + c) d) := by
    simp only [List.append_assoc]
  have heq2 : List.range' 0 a ++ ((List.range' a b ++ List.range' (a + b) c) ++
      List.range' (a + b + c) d) =
      (List.range' 0 a ++ List.range' a b) ++
        (List.range' (a + b) c ++ List.range' (a + b + c) d) := by
    simp only [List.append_assoc]
  rw [heq1]
  have step : (List.range' 0 a ++ ((List.range' (a + b) c ++ List.range' a b) ++
      List.range' (a + b + c) d)).Perm
      (List.range' 0 a ++ ((List.range' a b ++ List.range' (a + b) c) ++
        List.range' (a + b + c) d)) :=
    List.Perm.append_left _ (List.Perm.append_right _ List.perm_append_comm)
  refine step.trans ?_
  rw [heq2, e1, e2, e3, List.range_eq_range']
  rw [show a + b + (c + d) = a + b + c + d from by omega]

/-- The M1/M2 Ultra branch of `GetCoreTopology` partitions `[0, p + e)`. -/
theorem range'_ultra_perm (p e : Nat) :
    ((List.range' 0 (p / 2) ++
        List.range' (p / 2 + e / 2)
          (2 * (p / 2) + e / 2 - (p / 2 + e / 2))) ++
      (List.range' (p / 2) (p / 2 + e / 2 - p / 2) ++
        List.range' (2 * (p / 2) + e / 2) (p + e - (2 * (p / 2) + e / 2)))).Perm
      (List.range (p + e)) := by
  rw [show 2 * (p / 2) + e / 2 - (p / 2 + e / 2) = p / 2 from by omega,
    show p / 2 + e / 2 - p / 2 = e / 2 from by omega,
    show 2 * (p / 2) + e / 2 = p / 2 + e / 2 + p / 2 from by omega]
  set d := p + e - (p / 2 + e / 2 + p / 2) with hd
  rw [show p + e = p / 2 + e / 2 + p / 2 + d from by omega]
  exact range'_quad_perm (p / 2) (e / 2) (p / 2) d

/-- C1: for every input to `GetCoreTopology` — every chip identification
string (recognized or not) and every pair of non-negative core counts —
the concatenation of `PCoreIndices` and `ECoreIndices` is a permutation of
`[0, totalCores)`: every index appears exactly once, in every branch
including the default fallback. -/
theorem getCoreTopology_partition (sysInfo : SystemInfo) :
    ((GetCoreTopology sysInfo).PCoreIndices ++ (GetCoreTopology sysInfo).ECoreIndices).Perm
      (List.range (sysInfo.PCoreCount + sysInfo.ECoreCount)) := by
  obtain ⟨name, cc, e, p, g, iu, ii⟩ := sysInfo
  unfold GetCoreTopology
  dsimp only
  split_ifs with h1 h2 h3 h4
  · simp only [Bool.and_eq_true, beq_iff_eq] at h1
    obtain ⟨⟨-, hp⟩, he⟩ := h1
    subst hp
    subst he
    decide
  · simp only [Bool.and_eq_true, beq_iff_eq] at h2
    obtain ⟨⟨-, hp⟩, he⟩ := h2
    subst hp
    subst he
    decide
  · refine List.perm_append_comm.trans ?_
    have h := List.range'_append 0 e (p + e - e) 1
    simp only [Nat.one_mul, Nat.zero_add] at h
    rw [h, List.range_eq_range']
    rw [show p + e - e + e = p + e from by omega]
  · exact range'_ultra_perm p e
  · have h := List.range'_append 0 p (p + e - p) 1
    simp only [Nat.one_mul, Nat.zero_add] at h
    rw [h, List.range_eq_range']
    rw [show p + e - p + p = p + e from by omega]

/-! ### C6: remainder cores in the legacy dual-die Ultra layout -/

/-- C6 counterexample: the claim says odd leftover cores are assigned to
the first die's tail and stay in their own class.  For an `M1 Ultra` name
with 3 P-cores and 2 E-cores the resolver produces `PCoreIndices = [0, 2]`
(only `2·⌊3/2⌋ = 2` performance indices — the leftover performance core is
not in its own class) and `ECoreIndices = [1, 3, 4]`: the remainder core
ends up as index `4`, at the tail of the second die's efficiency block. -/
theorem ultra_remainder_counterexample :
    (GetCoreTopology ⟨"M1 Ultra", 5, 2, 3, 0, true, true⟩).PCoreIndices = [0, 2] ∧
    (GetCoreTopology ⟨"M1 Ultra", 5, 2, 3, 0, true, true⟩).ECoreIndices = [1, 3, 4] ∧
    (GetCoreTopology ⟨"M1 Ultra", 5, 2, 3, 0, true, true⟩).PCoreIndices.length ≠ 3 := by
  refine ⟨by decide, by decide, by decide⟩

/-- C6 amended: the legacy dual-die Ultra branch splits each class by
integer division, `⌊p/2⌋` performance and `⌊e/2⌋` efficiency cores per
die; the remainder cores are not kept in their own class on die one — the
final efficiency block of the second die absorbs every index up to
`totalCores`, so remainder cores are appended to the second die's
efficiency tail and the performance class holds exactly `2·⌊p/2⌋`
indices. -/
theorem ultra_remainder_to_second_die_etail (name : String) (cc e p g : Nat)
    (iu ii : Bool)
    (h3u : stringsContains name "M3 Ultra" = false)
    (h4p : stringsContains name "M4 Pro" = false)
    (h12 : (stringsContains name "M1 Ultra" || stringsContains name "M2 Ultra") = true) :
    (GetCoreTopology ⟨name, cc, e, p, g, iu, ii⟩).PCoreIndices =
        List.range' 0 (p / 2) ++ List.range' (p / 2 + e / 2) (p / 2) ∧
    (GetCoreTopology ⟨name, cc, e, p, g, iu, ii⟩).ECoreIndices =
        List.range' (p / 2) (e / 2) ++
          List.range' (2 * (p / 2) + e / 2) (p + e - (2 * (p / 2) + e / 2)) ∧
    (GetCoreTopology ⟨name, cc, e, p, g, iu, ii⟩).PCoreIndices.length = 2 * (p / 2) ∧
    (GetCoreTopology ⟨name, cc, e, p, g, iu, ii⟩).ECoreIndices.length =
        (p + e) - 2 * (p / 2) := by
  have hb : GetCoreTopology ⟨name, cc, e, p, g, iu, ii⟩ =
      { Description := "M1/M2 Ultra: P-cores first within each die"
        PCoreIndices := List.range' 0 (p / 2) ++
          List.range' (p / 2 + e / 2) (2 * (p / 2) + e / 2 - (p / 2 + e / 2))
        ECoreIndices := List.range' (p / 2) (p / 2 + e / 2 - p / 2) ++
          List.range' (2 * (p / 2) + e / 2) (p + e - (2 * (p / 2) + e / 2)) } := by
    unfold GetCoreTopology
    dsimp only
    rw [if_neg (by simp [h3u]), if_neg (by simp [h3u]), if_neg (by simp [h4p]),
      if_pos h12]
  rw [hb]
  refine ⟨?_, ?_, ?_, ?_⟩
  · rw [show 2 * (p / 2) + e / 2 - (p / 2 + e / 2) = p / 2 from by omega]
  · rw [show p / 2 + e / 2 - p / 2 = e / 2 from by omega]
  · simp [List.length_range']
    omega
  · simp [List.length_range']
    omega

/-- C6 witness: the amended statement at the `M1 Ultra` name with 3
performance and 2 efficiency cores: the performance class is `[0, 2]`
(length `2 = 2·⌊3/2⌋`), and the efficiency class `[1, 3, 4]` (length
`3 = 5 - 2·⌊3/2⌋`) absorbs the remainder core `4` at the second die's
tail. -/
theorem ultra_remainder_to_second_die_etail_witness :
    (GetCoreTopology ⟨"M1 Ultra", 5, 2, 3, 0, true, true⟩).PCoreIndices = [0, 2] ∧
    (GetCoreTopology ⟨"M1 Ultra", 5, 2, 3, 0, true, true⟩).ECoreIndices = [1, 3, 4] ∧
    (GetCoreTopology ⟨"M1 Ultra", 5, 2, 3, 0, true, true⟩).PCoreIndices.length = 2 * (3 / 2) ∧
    (GetCoreTopology ⟨"M1 Ultra", 5, 2, 3, 0, true, true⟩).ECoreIndices.length =
      (3 + 2) - 2 * (3 / 2) := by
  have h := ultra_remainder_to_second_die_etail "M1 Ultra" 5 2 3 0 true true
    (by decide) (by decide) (by decide)
  refine ⟨?_, ?_, ?_, ?_⟩
  · rw [h.1]
    decide
  · rw [h.2.1]
    decide
  · rw [h.2.2.1]
  · rw [h.2.2.2]

/-! ### C7: the two divergent Ultra topology computations -/

/-- C7: for the legacy dual-die Ultra chip signature `"M1 Ultra"` with 3
performance and 2 efficiency cores (5 reported cores), the general
resolver `GetCoreTopology` and the inline interleaved topology code of the
headless exporter loop disagree on the class of core index `4`: the
resolver classifies it as an efficiency core, while the inline computation
assigns it to neither class. -/
theorem topology_computations_diverge :
    4 ∈ (GetCoreTopology ⟨"M1 Ultra", 5, 2, 3, 0, true, true⟩).ECoreIndices ∧
    4 ∉ (inlineHeadlessClasses ⟨"M1 Ultra", 5, 2, 3, 0, true, true⟩ 5).2 ∧
    4 ∉ (inlineHeadlessClasses ⟨"M1 Ultra", 5, 2, 3, 0, true, true⟩ 5).1 ∧
    4 ∉ (GetCoreTopology ⟨"M1 Ultra", 5, 2, 3, 0, true, true⟩).PCoreIndices := by
  refine ⟨by decide, by decide, by decide, by decide⟩

/-! ### C9 infrastructure: marker occurrences and `firstIdx` -/

/-- `pat` occurs in `l` at position `j` (as a contiguous sub-list). -/
def OccursAt (pat l : List Char) (j : Nat) : Prop :=
  pat <+: l.drop j

theorem occursAt_cons_succ (pat : List Char) (c : Char) (tl : List Char) (j : Nat) :
    OccursAt pat (c :: tl) (j + 1) ↔ OccursAt pat tl j :=
  Iff.rfl

/-- `firstIdx` finds the first occurrence: soundness, completeness and
minimality, in one statement for the induction. -/
theorem firstIdx_spec (data pat : List Char) :
    (∀ i, firstIdx data pat = some i →
      OccursAt pat data i ∧ ∀ j, j < i → ¬ OccursAt pat data j) ∧
    (firstIdx data pat = none → ∀ j, ¬ OccursAt pat data j) ∧
    (∀ j, OccursAt pat data j → ∃ i, firstIdx data pat = some i ∧ i ≤ j) := by
  induction data with
  | nil =>
    by_cases h : List.isPrefixOf pat ([] : List Char) = true
    · refine ⟨?_, ?_, ?_⟩
      · intro i hi
        unfold firstIdx at hi
        rw [if_pos h] at hi
        cases hi
        exact ⟨List.isPrefixOf_iff_prefix.mp h, by omega⟩
      · intro hn
        unfold firstIdx at hn
        rw [if_pos h] at hn
        cases hn
      · intro j _
        refine ⟨0, ?_, Nat.zero_le _⟩
        unfold firstIdx
        rw [if_pos h]
    · refine ⟨?_, ?_, ?_⟩
      · intro i hi
        unfold firstIdx at hi
        rw [if_neg h] at hi
        cases hi
      · intro _ j hocc
        exact h (List.isPrefixOf_iff_prefix.mpr (by
          simpa [OccursAt, List.drop_nil] using hocc))
      · intro j hocc
        exact absurd (List.isPrefixOf_iff_prefix.mpr (by
          simpa [OccursAt, List.drop_nil] using hocc)) h
  | cons c tl ih =>
    obtain ⟨ih1, ih2, ih3⟩ := ih
    by_cases h : List.isPrefixOf pat (c :: tl) = true
    · refine ⟨?_, ?_, ?_⟩
      · intro i hi
        unfold firstIdx at hi
        rw [if_pos h] at hi
        cases hi
        exact ⟨List.isPrefixOf_iff_prefix.mp h, by omega⟩
      · intro hn
        unfold firstIdx at hn
        rw [if_pos h] at hn
        cases hn
      · intro j _
        refine ⟨0, ?_, Nat.zero_le _⟩
        unfold firstIdx
        rw [if_pos h]
    · have hnot0 : ¬ OccursAt pat (c :: tl) 0 := by
        intro hocc
        exact h (List.isPrefixOf_iff_prefix.mpr hocc)
      cases hf : firstIdx tl pat with
      | none =>
        have hval : firstIdx (c :: tl) pat = none := by
          unfold firstIdx
          rw [if_neg h]
          dsimp only
          rw [hf]
          rfl
        refine ⟨?_, ?_, ?_⟩
        · intro i hi
          rw [hval] at hi
          cases hi
        · intro _ j hocc
          cases j with
          | zero => exact hnot0 hocc
          | succ j' => exact ih2 hf j' ((occursAt_cons_succ pat c tl j').mp hocc)
        · intro j hocc
          cases j with
          | zero => exact absurd hocc hnot0
          | succ j' =>
            obtain ⟨i, hi, -⟩ := ih3 j' ((occursAt_cons_succ pat c tl j').mp hocc)
            rw [hf] at hi
            cases hi
      | some i =>
        have hval : firstIdx (c :: tl) pat = some (i + 1) := by
          unfold firstIdx
          rw [if_neg h]
          dsimp only
          rw [hf]
          rfl
        obtain ⟨hocc_i, hmin_i⟩ := ih1 i hf
        refine ⟨?_, ?_, ?_⟩
        · intro i' hi'
          rw [hval] at hi'
          cases hi'
          refine ⟨(occursAt_cons_succ pat c tl i).mpr hocc_i, ?_⟩
          intro j hj hocc
          cases j with
          | zero => exact hnot0 hocc
          | succ j' =>
            exact hmin_i j' (by omega) ((occursAt_cons_succ pat c tl j').mp hocc)
        · intro hn
          rw [hval] at hn
          cases hn
        · intro j hocc
          cases j with
          | zero => exact absurd hocc hnot0
          | succ j' =>
            obtain ⟨i2, hi2, hle2⟩ := ih3 j' ((occursAt_cons_succ pat c tl j').mp hocc)
            rw [hf] at hi2
            cases hi2
            exact ⟨i + 1, hval, by omega⟩

theorem firstIdx_none_iff (data pat : List Char) :
    firstIdx data pat = none ↔ ∀ j, ¬ OccursAt pat data j := by
  constructor
  · exact (firstIdx_spec data pat).2.1
  · intro hall
    cases hf : firstIdx data pat with
    | none => rfl
    | some i => exact absurd ((firstIdx_spec data pat).1 i hf).1 (hall i)

theorem firstIdx_some_iff (data pat : List Char) (i : Nat) :
    firstIdx data pat = some i ↔
      (OccursAt pat data i ∧ ∀ j, j < i → ¬ OccursAt pat data j) := by
  constructor
  · exact (firstIdx_spec data pat).1 i
  · rintro ⟨hocc, hmin⟩
    obtain ⟨i', hi', hle⟩ := (firstIdx_spec data pat).2.2 i hocc
    obtain ⟨hocc', -⟩ := (firstIdx_spec data pat).1 i' hi'
    rcases Nat.lt_or_ge i' i with hlt | hge
    · exact absurd hocc' (hmin i' hlt)
    · rw [hi']
      congr 1
      omega

/-! Transfer lemmas between occurrences in windows (`take`/`drop`) and in
the full stream. -/

theorem occursAt_take_iff (pat l : List Char) (q j : Nat) (hp : 0 < pat.length) :
    OccursAt pat (l.take q) j ↔ OccursAt pat l j ∧ j + pat.length ≤ q := by
  unfold OccursAt
  rw [List.drop_take, List.prefix_take_iff]
  constructor
  · rintro ⟨h1, h2⟩
    exact ⟨h1, by omega⟩
  · rintro ⟨h1, h2⟩
    exact ⟨h1, by omega⟩

theorem occursAt_drop_iff (pat l : List Char) (m j : Nat) :
    OccursAt pat (l.drop m) j ↔ OccursAt pat l (m + j) := by
  unfold OccursAt
  rw [List.drop_drop]

theorem occursAt_append_right (pat A B : List Char) (j : Nat)
    (h : OccursAt pat B j) :
    OccursAt pat (A ++ B) (A.length + j) := by
  unfold OccursAt at h ⊢
  rw [← List.drop_drop, List.drop_left]
  exact h

theorem occursAt_mono_append (pat A B : List Char) (j : Nat) (hj : j ≤ A.length)
    (h : OccursAt pat A j) :
    OccursAt pat (A ++ B) j := by
  unfold OccursAt at h ⊢
  rw [List.drop_append_of_le_length hj]
  exact h.trans (List.prefix_append _ _)

theorem occursAt_restrict (pat A B : List Char) (j : Nat)
    (h : OccursAt pat (A ++ B) j) (hle : j + pat.length ≤ A.length) :
    OccursAt pat A j := by
  unfold OccursAt at h ⊢
  rw [List.drop_append_of_le_length (by omega)] at h
  rw [List.prefix_iff_eq_take] at h ⊢
  have htk : (A.drop j ++ B).take pat.length = (A.drop j).take pat.length :=
    List.take_append_of_le_length (by rw [List.length_drop]; omega)
  exact h.trans htk

theorem prefix_getElem?_eq {X Y : List Char} (h : X <+: Y) {k : Nat}
    (hk : k < X.length) :
    Y[k]? = X[k]? := by
  obtain ⟨t, rfl⟩ := h
  rw [List.getElem?_append]
  rw [if_pos hk]

/-- No occurrence of a marker (a pattern whose only `'<'` is its first
byte) can straddle the boundary between `A` and a `B` that starts with
`'<'`: an occurrence starting inside `A` ends inside `A`. -/
theorem no_cross_junction (pat A B : List Char)
    (hpat : ∀ k, k < pat.length → 0 < k → pat[k]? ≠ some '<')
    (hB : B.head? = some '<') (j : Nat) (hj : j < A.length)
    (hocc : OccursAt pat (A ++ B) j) :
    j + pat.length ≤ A.length := by
  by_contra hcon
  push_neg at hcon
  have hk : A.length - j < pat.length := by omega
  have hk0 : 0 < A.length - j := by omega
  have h1 : (A ++ B)[A.length]? = some '<' := by
    rw [List.getElem?_append, if_neg (by omega)]
    simpa [List.head?_eq_getElem?] using hB
  have h2 : ((A ++ B).drop j)[A.length - j]? = (A ++ B)[A.length]? := by
    rw [List.getElem?_drop]
    congr 1
    omega
  have h3 : ((A ++ B).drop j)[A.length - j]? = pat[A.length - j]? :=
    prefix_getElem?_eq hocc hk
  exact hpat _ hk hk0 (by rw [← h3, h2, h1])

/-! Decidable facts about the three markers. -/

theorem xmlMarker_length : xmlMarker.length = 5 := by decide

theorem plistMarker_length : plistMarker.length = 6 := by decide

theorem endMarker_length : endMarker.length = 8 := by decide

theorem xmlMarker_no_lt :
    ∀ k, k < xmlMarker.length → 0 < k → xmlMarker[k]? ≠ some '<' := by
  decide

theorem plistMarker_no_lt :
    ∀ k, k < plistMarker.length → 0 < k → plistMarker[k]? ≠ some '<' := by
  decide

theorem endMarker_no_lt :
    ∀ k, k < endMarker.length → 0 < k → endMarker[k]? ≠ some '<' := by
  decide

theorem xmlMarker_head : xmlMarker.head? = some '<' := by decide

/-! ### C9 infrastructure: well-formed records and noise -/

/-- Noise as the claim describes it: bytes containing no occurrence of any
accepted marker. -/
def NoMarkers (l : List Char) : Prop :=
  firstIdx l xmlMarker = none ∧ firstIdx l plistMarker = none ∧
    firstIdx l endMarker = none

/-- What the framing proof uses about a start marker: it begins with `'<'`,
contains no other `'<'`, and is non-empty. -/
def IsStartMarker (sm : List Char) : Prop :=
  sm.head? = some '<' ∧ (∀ k, k < sm.length → 0 < k → sm[k]? ≠ some '<') ∧
    0 < sm.length

theorem isStartMarker_xml : IsStartMarker xmlMarker :=
  ⟨by decide, xmlMarker_no_lt, by decide⟩

theorem isStartMarker_plist : IsStartMarker plistMarker :=
  ⟨by decide, plistMarker_no_lt, by decide⟩

/-- A record whose only occurrence of the `"</plist>"` end marker is its
final 8 bytes is at least 8 bytes long. -/
theorem endIdx_length_ge (r : List Char)
    (hrend : firstIdx r endMarker = some (r.length - 8)) : 8 ≤ r.length := by
  have hocc := ((firstIdx_some_iff r endMarker _).mp hrend).1
  have hlen := hocc.length_le
  rw [endMarker_length, List.length_drop] at hlen
  omega

/-- Uniqueness of the end-marker occurrence inside such a record. -/
theorem endIdx_unique (r : List Char)
    (hrend : firstIdx r endMarker = some (r.length - 8)) (j : Nat)
    (hocc : OccursAt endMarker r j) : j = r.length - 8 := by
  have h8 := endIdx_length_ge r hrend
  have hj8 : j + 8 ≤ r.length := by
    have hlen := hocc.length_le
    rw [endMarker_length, List.length_drop] at hlen
    omega
  obtain ⟨-, hmin⟩ := (firstIdx_some_iff r endMarker _).mp hrend
  by_contra hne
  exact hmin j (by omega) hocc

/-- A record that starts with a start marker starts with `'<'`. -/
theorem head_of_marker_prefix (sm r : List Char) (hsm : IsStartMarker sm)
    (hpre : sm <+: r) : r.head? = some '<' := by
  rw [List.head?_eq_getElem?, prefix_getElem?_eq hpre hsm.2.2,
    ← List.head?_eq_getElem?]
  exact hsm.1

/-- A well-formed record ends with the end marker itself. -/
theorem record_end_suffix (r : List Char)
    (hrend : firstIdx r endMarker = some (r.length - 8)) :
    r.drop (r.length - 8) = endMarker := by
  have h8 := endIdx_length_ge r hrend
  have hocc := ((firstIdx_some_iff r endMarker _).mp hrend).1
  obtain ⟨t, ht⟩ := hocc
  have hlen : (r.drop (r.length - 8)).length = 8 := by
    rw [List.length_drop]
    omega
  have ht0 : t = [] := by
    have hl := congrArg List.length ht
    rw [List.length_append, endMarker_length, hlen] at hl
    exact List.length_eq_zero.mp (by omega)
  rw [← ht, ht0, List.append_nil]

/-- The last four bytes of a well-formed record are the tail of
`"</plist>"`, none of which is `'<'`, so no start-marker occurrence can
begin there. -/
theorem record_tail_no_lt (r : List Char)
    (hrend : firstIdx r endMarker = some (r.length - 8)) (k : Nat)
    (hk1 : r.length - 4 ≤ k) (hk2 : k < r.length) : r[k]? ≠ some '<' := by
  have h8 := endIdx_length_ge r hrend
  have hsfx := record_end_suffix r hrend
  have hidx : r[k]? = (r.drop (r.length - 8))[k - (r.length - 8)]? := by
    rw [List.getElem?_drop]
    congr 1
    omega
  rw [hidx, hsfx]
  have h4 : ∀ j, j < 8 → 4 ≤ j → endMarker[j]? ≠ some '<' := by decide
  exact h4 _ (by omega) (by omega)

/-! Occurrence atlas for a stream of shape `n' ++ (r ++ rest)` with
marker-free `n'` and a record `r` that starts with `'<'`. -/

theorem stage_no_marker_before (n' r rest : List Char)
    (hrhead : r.head? = some '<')
    (pat : List Char) (hpx : firstIdx n' pat = none)
    (hpat : ∀ k, k < pat.length → 0 < k → pat[k]? ≠ some '<')
    (j : Nat) (hocc : OccursAt pat (n' ++ (r ++ rest)) j) (hj : j < n'.length) :
    False := by
  have hB : (r ++ rest).head? = some '<' := by
    rw [List.head?_append, hrhead]
    rfl
  have hend := no_cross_junction pat n' (r ++ rest) hpat hB j hj hocc
  have hin := occursAt_restrict pat n' (r ++ rest) j hocc hend
  rw [firstIdx_none_iff] at hpx
  exact hpx j hin

theorem stage_first_pat (n' r rest : List Char) (hrhead : r.head? = some '<')
    (pat : List Char) (hpx : firstIdx n' pat = none)
    (hpat : ∀ k, k < pat.length → 0 < k → pat[k]? ≠ some '<')
    (j : Nat) (hocc : OccursAt pat (n' ++ (r ++ rest)) j) :
    n'.length ≤ j := by
  by_contra hlt
  push_neg at hlt
  exact stage_no_marker_before n' r rest hrhead pat hpx hpat j hocc hlt

theorem stage_marker_at (sm n' r rest : List Char) (hpre : sm <+: r) :
    OccursAt sm (n' ++ (r ++ rest)) n'.length := by
  have h0 : OccursAt sm (r ++ rest) 0 := hpre.trans (List.prefix_append r rest)
  have h := occursAt_append_right sm n' (r ++ rest) 0 h0
  simpa using h

theorem stage_end_unique (n' r rest : List Char) (hn : NoMarkers n')
    (hrhead : r.head? = some '<')
    (hrend : firstIdx r endMarker = some (r.length - 8))
    (j : Nat) (hocc : OccursAt endMarker (n' ++ (r ++ rest)) j)
    (hj8 : j + 8 ≤ n'.length + r.length) :
    j = n'.length + r.length - 8 := by
  have h8 := endIdx_length_ge r hrend
  rcases Nat.lt_or_ge j n'.length with hlt | hge
  · exact absurd (stage_no_marker_before n' r rest hrhead endMarker hn.2.2
      endMarker_no_lt j hocc hlt) (fun h => h)
  · have hshift : OccursAt endMarker ((n' ++ (r ++ rest)).drop n'.length)
        (j - n'.length) := by
      rw [occursAt_drop_iff]
      rw [show n'.length + (j - n'.length) = j from by omega]
      exact hocc
    rw [List.drop_left] at hshift
    have hin : OccursAt endMarker r (j - n'.length) :=
      occursAt_restrict endMarker r rest (j - n'.length) hshift
        (by rw [endMarker_length]; omega)
    have := endIdx_unique r hrend (j - n'.length) hin
    omega

theorem stage_end_at (n' r rest : List Char)
    (hrend : firstIdx r endMarker = some (r.length - 8)) :
    OccursAt endMarker (n' ++ (r ++ rest)) (n'.length + r.length - 8) := by
  have h8 := endIdx_length_ge r hrend
  have hocc : OccursAt endMarker r (r.length - 8) :=
    ((firstIdx_some_iff r endMarker _).mp hrend).1
  have hmono : OccursAt endMarker (r ++ rest) (r.length - 8) :=
    occursAt_mono_append endMarker r rest _ (by omega) hocc
  have h := occursAt_append_right endMarker n' (r ++ rest) _ hmono
  rw [show n'.length + (r.length - 8) = n'.length + r.length - 8 from by omega] at h
  exact h

/-! Evaluating `splitFunc` in non-EOF mode. -/

theorem splitFunc_false_none_none (W : List Char)
    (hx : firstIdx W xmlMarker = none) (hp : firstIdx W plistMarker = none) :
    splitFunc W false = (0, none) := by
  simp [splitFunc, hx, hp]

theorem splitFunc_false_start_noend (W : List Char) (s : Nat)
    (hx : firstIdx W xmlMarker = some s)
    (he : firstIdx (W.drop s) endMarker = none) :
    splitFunc W false = (0, none) := by
  simp [splitFunc, hx, he]

theorem splitFunc_false_start_end (W : List Char) (s e : Nat)
    (hx : firstIdx W xmlMarker = some s)
    (he : firstIdx (W.drop s) endMarker = some e) :
    splitFunc W false = (s + e + 8, some ((W.drop s).take (e + 8))) := by
  simp [splitFunc, hx, he]

theorem splitFunc_false_pstart_noend (W : List Char) (s : Nat)
    (hx : firstIdx W xmlMarker = none)
    (hp : firstIdx W plistMarker = some s)
    (he : firstIdx (W.drop s) endMarker = none) :
    splitFunc W false = (0, none) := by
  simp [splitFunc, hx, hp, he]

theorem splitFunc_false_pstart_end (W : List Char) (s e : Nat)
    (hx : firstIdx W xmlMarker = none)
    (hp : firstIdx W plistMarker = some s)
    (he : firstIdx (W.drop s) endMarker = some e) :
    splitFunc W false = (s + e + 8, some ((W.drop s).take (e + 8))) := by
  simp [splitFunc, hx, hp, he]

/-- How the split-function start search resolves for a stream whose
records use start marker `sm`: either `sm` is `"<?xml"` (searched first),
or `sm` is `"<plist"` and the stream contains no `"<?xml"` occurrence at
all, so the fallback search is the one that fires. -/
def StartsResolve (sm T : List Char) : Prop :=
  sm = xmlMarker ∨ (sm = plistMarker ∧ ∀ j, ¬ OccursAt xmlMarker T j)

/-! The two marker searches on a window `(n' ++ (r ++ rest)).take q`. -/

theorem stage_startsearch (sm n' r rest : List Char) (hsm : IsStartMarker sm)
    (hn : NoMarkers n') (hpre : sm <+: r)
    (hmode : StartsResolve sm (n' ++ (r ++ rest))) (q : Nat) :
    (q < n'.length + sm.length →
      firstIdx ((n' ++ (r ++ rest)).take q) xmlMarker = none ∧
        firstIdx ((n' ++ (r ++ rest)).take q) plistMarker = none) ∧
    (n'.length + sm.length ≤ q →
      (firstIdx ((n' ++ (r ++ rest)).take q) xmlMarker = some n'.length ∨
        (firstIdx ((n' ++ (r ++ rest)).take q) xmlMarker = none ∧
          firstIdx ((n' ++ (r ++ rest)).take q) plistMarker = some n'.length))) := by
  have hrhead : r.head? = some '<' := head_of_marker_prefix sm r hsm hpre
  have hsml := hsm.2.2
  have hsm56 : sm.length = 5 ∨ sm.length = 6 := by
    rcases hmode with hm | ⟨hm, -⟩
    · rw [hm]
      exact Or.inl xmlMarker_length
    · rw [hm]
      exact Or.inr plistMarker_length
  constructor
  · intro hq
    constructor
    · rcases hmode with hm | ⟨-, hno⟩
      · rw [firstIdx_none_iff]
        intro j hocc
        rw [occursAt_take_iff _ _ _ _ (by rw [xmlMarker_length]; omega)] at hocc
        obtain ⟨ho, hb⟩ := hocc
        have hj := stage_first_pat n' r rest hrhead xmlMarker hn.1 xmlMarker_no_lt j ho
        rw [xmlMarker_length] at hb
        rw [hm, xmlMarker_length] at hq
        omega
      · rw [firstIdx_none_iff]
        intro j hocc
        rw [occursAt_take_iff _ _ _ _ (by rw [xmlMarker_length]; omega)] at hocc
        exact hno j hocc.1
    · rw [firstIdx_none_iff]
      intro j hocc
      rw [occursAt_take_iff _ _ _ _ (by rw [plistMarker_length]; omega)] at hocc
      obtain ⟨ho, hb⟩ := hocc
      have hj := stage_first_pat n' r rest hrhead plistMarker hn.2.1
        plistMarker_no_lt j ho
      rw [plistMarker_length] at hb
      rcases hsm56 with h5 | h6 <;> omega
  · intro hq
    have hsmocc : OccursAt sm ((n' ++ (r ++ rest)).take q) n'.length := by
      rw [occursAt_take_iff _ _ _ _ hsml]
      exact ⟨stage_marker_at sm n' r rest hpre, by omega⟩
    rcases hmode with hm | ⟨hm, hno⟩
    · left
      subst hm
      rw [firstIdx_some_iff]
      refine ⟨hsmocc, ?_⟩
      intro j hj hocc
      rw [occursAt_take_iff _ _ _ _ (by rw [xmlMarker_length]; omega)] at hocc
      exact absurd (stage_first_pat n' r rest hrhead xmlMarker hn.1
        xmlMarker_no_lt j hocc.1) (by omega)
    · right
      subst hm
      constructor
      · rw [firstIdx_none_iff]
        intro j hocc
        rw [occursAt_take_iff _ _ _ _ (by rw [xmlMarker_length]; omega)] at hocc
        exact hno j hocc.1
      · rw [firstIdx_some_iff]
        refine ⟨hsmocc, ?_⟩
        intro j hj hocc
        rw [occursAt_take_iff _ _ _ _ (by rw [plistMarker_length]; omega)] at hocc
        exact absurd (stage_first_pat n' r rest hrhead plistMarker hn.2.1
          plistMarker_no_lt j hocc.1) (by omega)

/-! The end-marker search on a window, after the start marker was found at
`n'.length`. -/

theorem stage_endsearch_none (n' r rest : List Char) (hn : NoMarkers n')
    (hrhead : r.head? = some '<')
    (hrend : firstIdx r endMarker = some (r.length - 8))
    (q : Nat) (hq : q < n'.length + r.length) :
    firstIdx (((n' ++ (r ++ rest)).take q).drop n'.length) endMarker = none := by
  have h8 := endIdx_length_ge r hrend
  rw [firstIdx_none_iff]
  intro k hocc
  rw [occursAt_drop_iff] at hocc
  rw [occursAt_take_iff _ _ _ _ (by rw [endMarker_length]; omega)] at hocc
  obtain ⟨ho, hb⟩ := hocc
  rw [endMarker_length] at hb
  have := stage_end_unique n' r rest hn hrhead hrend (n'.length + k) ho (by omega)
  omega

theorem stage_endsearch_some (n' r rest : List Char) (hn : NoMarkers n')
    (hrhead : r.head? = some '<')
    (hrend : firstIdx r endMarker = some (r.length - 8))
    (q : Nat) (hq : n'.length + r.length ≤ q) :
    firstIdx (((n' ++ (r ++ rest)).take q).drop n'.length) endMarker =
      some (r.length - 8) := by
  have h8 := endIdx_length_ge r hrend
  rw [firstIdx_some_iff]
  constructor
  · rw [occursAt_drop_iff]
    rw [occursAt_take_iff _ _ _ _ (by rw [endMarker_length]; omega)]
    refine ⟨?_, ?_⟩
    · rw [show n'.length + (r.length - 8) = n'.length + r.length - 8 from by omega]
      exact stage_end_at n' r rest hrend
    · rw [endMarker_length]
      omega
  · intro k hk hocc
    rw [occursAt_drop_iff] at hocc
    rw [occursAt_take_iff _ _ _ _ (by rw [endMarker_length]; omega)] at hocc
    obtain ⟨ho, hb⟩ := hocc
    rw [endMarker_length] at hb
    have := stage_end_unique n' r rest hn hrhead hrend (n'.length + k) ho (by omega)
    omega

/-! The split function on a window `(n' ++ (r ++ rest)).take q`. -/

theorem splitFunc_stage_incomplete (sm n' r rest : List Char)
    (hsm : IsStartMarker sm) (hn : NoMarkers n') (hpre : sm <+: r)
    (hrend : firstIdx r endMarker = some (r.length - 8))
    (hmode : StartsResolve sm (n' ++ (r ++ rest)))
    (q : Nat) (hq : q < n'.length + r.length) :
    splitFunc ((n' ++ (r ++ rest)).take q) false = (0, none) := by
  have hrhead : r.head? = some '<' := head_of_marker_prefix sm r hsm hpre
  by_cases hcase : q < n'.length + sm.length
  · obtain ⟨hx, hp⟩ := (stage_startsearch sm n' r rest hsm hn hpre hmode q).1 hcase
    exact splitFunc_false_none_none _ hx hp
  · push_neg at hcase
    have he := stage_endsearch_none n' r rest hn hrhead hrend q hq
    rcases (stage_startsearch sm n' r rest hsm hn hpre hmode q).2 hcase with
      hx | ⟨hx, hp⟩
    · exact splitFunc_false_start_noend _ _ hx he
    · exact splitFunc_false_pstart_noend _ _ hx hp he

theorem splitFunc_stage_complete (sm n' r rest : List Char)
    (hsm : IsStartMarker sm) (hn : NoMarkers n') (hpre : sm <+: r)
    (hrend : firstIdx r endMarker = some (r.length - 8))
    (hmode : StartsResolve sm (n' ++ (r ++ rest)))
    (q : Nat) (hq : n'.length + r.length ≤ q) :
    splitFunc ((n' ++ (r ++ rest)).take q) false =
      (n'.length + r.length, some r) := by
  have h8 := endIdx_length_ge r hrend
  have hrhead : r.head? = some '<' := head_of_marker_prefix sm r hsm hpre
  have hsmle : sm.length ≤ r.length := hpre.length_le
  have he := stage_endsearch_some n' r rest hn hrhead hrend q hq
  have hstart := (stage_startsearch sm n' r rest hsm hn hpre hmode q).2 (by omega)
  have h1 : n'.length + (r.length - 8) + 8 = n'.length + r.length := by omega
  have h2 : (((n' ++ (r ++ rest)).take q).drop n'.length).take (r.length - 8 + 8) =
      r := by
    rw [show r.length - 8 + 8 = r.length from by omega]
    rw [List.drop_take, List.drop_left, List.take_take,
      min_eq_left (by omega), List.take_left]
  rcases hstart with hx | ⟨hx, hp⟩
  · rw [splitFunc_false_start_end _ _ _ hx he, h1, h2]
  · rw [splitFunc_false_pstart_end _ _ _ hx hp he, h1, h2]

/-- For a stream of two `"<plist"`-started records (containing no
`"<?xml"` themselves) amid marker-free noise, the whole stream contains no
`"<?xml"` occurrence, so the split-function fallback search is the one
that fires. -/
theorem no_xml_in_stream (n0 r1 n1 r2 n2 : List Char)
    (h0 : NoMarkers n0) (h1 : NoMarkers n1) (h2 : NoMarkers n2)
    (hpre1 : plistMarker <+: r1)
    (hrend1 : firstIdx r1 endMarker = some (r1.length - 8))
    (hpre2 : plistMarker <+: r2)
    (hrend2 : firstIdx r2 endMarker = some (r2.length - 8))
    (hx1 : firstIdx r1 xmlMarker = none)
    (hx2 : firstIdx r2 xmlMarker = none) :
    ∀ j, ¬ OccursAt xmlMarker (n0 ++ (r1 ++ (n1 ++ (r2 ++ n2)))) j := by
  have h81 := endIdx_length_ge r1 hrend1
  have h82 := endIdx_length_ge r2 hrend2
  have hr1head := head_of_marker_prefix plistMarker r1 isStartMarker_plist hpre1
  have hr2head := head_of_marker_prefix plistMarker r2 isStartMarker_plist hpre2
  have hxml0 : xmlMarker[0]? = some '<' := by decide
  intro j hocc
  rcases Nat.lt_or_ge j n0.length with hj0 | hj0
  · exact stage_no_marker_before n0 r1 (n1 ++ (r2 ++ n2)) hr1head xmlMarker h0.1
      xmlMarker_no_lt j hocc hj0
  · have hocc1 : OccursAt xmlMarker (r1 ++ (n1 ++ (r2 ++ n2))) (j - n0.length) := by
      have h := (occursAt_drop_iff xmlMarker _ n0.length (j - n0.length)).mpr
        (by rw [show n0.length + (j - n0.length) = j from by omega]; exact hocc)
      rwa [List.drop_left] at h
    rcases Nat.lt_or_ge (j - n0.length) r1.length with hj1 | hj1
    · rcases le_or_lt (j - n0.length + 5) r1.length with hfit | hfit
      · have hin : OccursAt xmlMarker r1 (j - n0.length) :=
          occursAt_restrict xmlMarker r1 (n1 ++ (r2 ++ n2)) _ hocc1
            (by rw [xmlMarker_length]; omega)
        exact (firstIdx_none_iff r1 xmlMarker).mp hx1 _ hin
      · have hstart : (r1 ++ (n1 ++ (r2 ++ n2)))[j - n0.length]? = some '<' := by
          have hpg := @prefix_getElem?_eq _ _ hocc1 0
            (by rw [xmlMarker_length]; omega)
          rw [List.getElem?_drop, hxml0] at hpg
          simpa using hpg
        have hsame : (r1 ++ (n1 ++ (r2 ++ n2)))[j - n0.length]? =
            r1[j - n0.length]? := by
          rw [List.getElem?_append, if_pos hj1]
        rw [hsame] at hstart
        exact record_tail_no_lt r1 hrend1 _ (by omega) hj1 hstart
    · have hocc2 : OccursAt xmlMarker (n1 ++ (r2 ++ n2))
          (j - n0.length - r1.length) := by
        have h := (occursAt_drop_iff xmlMarker (r1 ++ (n1 ++ (r2 ++ n2)))
          r1.length (j - n0.length - r1.length)).mpr
          (by rw [show r1.length + (j - n0.length - r1.length) = j - n0.length
            from by omega]; exact hocc1)
        rwa [List.drop_left] at h
      rcases Nat.lt_or_ge (j - n0.length - r1.length) n1.length with hj2 | hj2
      · exact stage_no_marker_before n1 r2 n2 hr2head xmlMarker h1.1
          xmlMarker_no_lt _ hocc2 hj2
      · have hocc3 : OccursAt xmlMarker (r2 ++ n2)
            (j - n0.length - r1.length - n1.length) := by
          have h := (occursAt_drop_iff xmlMarker (n1 ++ (r2 ++ n2)) n1.length
            (j - n0.length - r1.length - n1.length)).mpr
            (by rw [show n1.length + (j - n0.length - r1.length - n1.length) =
              j - n0.length - r1.length from by omega]; exact hocc2)
          rwa [List.drop_left] at h
        rcases Nat.lt_or_ge (j - n0.length - r1.length - n1.length) r2.length with
          hj3 | hj3
        · rcases le_or_lt (j - n0.length - r1.length - n1.length + 5) r2.length
            with hfit | hfit
          · have hin : OccursAt xmlMarker r2 (j - n0.length - r1.length - n1.length) :=
              occursAt_restrict xmlMarker r2 n2 _ hocc3
                (by rw [xmlMarker_length]; omega)
            exact (firstIdx_none_iff r2 xmlMarker).mp hx2 _ hin
          · have hstart : (r2 ++ n2)[j - n0.length - r1.length - n1.length]? =
                some '<' := by
              have hpg := @prefix_getElem?_eq _ _ hocc3 0
                (by rw [xmlMarker_length]; omega)
              rw [List.getElem?_drop, hxml0] at hpg
              simpa using hpg
            have hsame : (r2 ++ n2)[j - n0.length - r1.length - n1.length]? =
                r2[j - n0.length - r1.length - n1.length]? := by
              rw [List.getElem?_append, if_pos hj3]
            rw [hsame] at hstart
            exact record_tail_no_lt r2 hrend2 _ (by omega) hj3 hstart
        · have hocc4 : OccursAt xmlMarker n2
              (j - n0.length - r1.length - n1.length - r2.length) := by
            have h := (occursAt_drop_iff xmlMarker (r2 ++ n2) r2.length
              (j - n0.length - r1.length - n1.length - r2.length)).mpr
              (by rw [show r2.length +
                (j - n0.length - r1.length - n1.length - r2.length) =
                j - n0.length - r1.length - n1.length from by omega]; exact hocc3)
            rwa [List.drop_left] at h
          exact (firstIdx_none_iff n2 xmlMarker).mp h2.1 _ hocc4

/-! ### C9 infrastructure: the scanner driver loop -/

theorem drainAux_stop (fuel : Nat) (buf : List Char) (atEOF : Bool)
    (h : splitFunc buf atEOF = (0, none)) :
    drainAux fuel buf atEOF = ([], buf) := by
  cases fuel with
  | zero => rfl
  | succ f => simp [drainAux, h]

theorem drainAux_emit (fuel : Nat) (buf : List Char) (atEOF : Bool) (adv : Nat)
    (tok : List Char) (h : splitFunc buf atEOF = (adv, some tok)) :
    drainAux (fuel + 1) buf atEOF =
      (tok :: (drainAux fuel (buf.drop adv) atEOF).1,
        (drainAux fuel (buf.drop adv) atEOF).2) := by
  simp [drainAux, h]

theorem drainAux_skip (fuel : Nat) (buf : List Char) (atEOF : Bool) (adv : Nat)
    (hadv : adv ≠ 0) (h : splitFunc buf atEOF = (adv, none)) :
    drainAux (fuel + 1) buf atEOF = drainAux fuel (buf.drop adv) atEOF := by
  simp [drainAux, h, hadv]

/-- Draining a marker-free buffer emits nothing (non-EOF mode). -/
theorem drain_noise (m : List Char) (hm : NoMarkers m) (fuel q : Nat) :
    drainAux fuel (m.take q) false = ([], m.take q) := by
  apply drainAux_stop
  apply splitFunc_false_none_none
  · rw [firstIdx_none_iff]
    intro j hocc
    rw [occursAt_take_iff _ _ _ _ (by rw [xmlMarker_length]; omega)] at hocc
    exact (firstIdx_none_iff m xmlMarker).mp hm.1 j hocc.1
  · rw [firstIdx_none_iff]
    intro j hocc
    rw [occursAt_take_iff _ _ _ _ (by rw [plistMarker_length]; omega)] at hocc
    exact (firstIdx_none_iff m plistMarker).mp hm.2.1 j hocc.1

/-- Draining a window of `n' ++ (r ++ n'')` (one record remaining, then
noise) emits the record exactly when the window covers it. -/
theorem drain_stage2 (sm n' r n'' : List Char) (hsm : IsStartMarker sm)
    (hn : NoMarkers n') (hpre : sm <+: r)
    (hrend : firstIdx r endMarker = some (r.length - 8))
    (hn'' : NoMarkers n'')
    (hmode : StartsResolve sm (n' ++ (r ++ n'')))
    (fuel q : Nat) (hfuel : q < fuel) :
    drainAux fuel ((n' ++ (r ++ n'')).take q) false =
      if n'.length + r.length ≤ q then
        ([r], ((n' ++ (r ++ n'')).take q).drop (n'.length + r.length))
      else ([], (n' ++ (r ++ n'')).take q) := by
  have h8 := endIdx_length_ge r hrend
  by_cases hc : n'.length + r.length ≤ q
  · rw [if_pos hc]
    cases fuel with
    | zero => omega
    | succ f =>
      rw [drainAux_emit f _ false _ r
        (splitFunc_stage_complete sm n' r n'' hsm hn hpre hrend hmode q hc)]
      have hb : (((n' ++ (r ++ n'')).take q)).drop (n'.length + r.length) =
          n''.take (q - (n'.length + r.length)) := by
        rw [List.drop_take]
        congr 1
        rw [show n' ++ (r ++ n'') = (n' ++ r) ++ n'' from by rw [List.append_assoc],
          show n'.length + r.length = (n' ++ r).length from
            (List.length_append n' r).symm]
        exact List.drop_left _ _
      rw [hb, drain_noise n'' hn'' f _]
  · rw [if_neg hc]
    exact drainAux_stop _ _ _
      (splitFunc_stage_incomplete sm n' r n'' hsm hn hpre hrend hmode q (by omega))

/-- Start-marker resolution propagates from the whole two-record stream to
its tail after the first record. -/
theorem startsResolve_tail (sm n0 r1 n1 r2 n2 : List Char)
    (hmode : StartsResolve sm (n0 ++ (r1 ++ (n1 ++ (r2 ++ n2))))) :
    StartsResolve sm (n1 ++ (r2 ++ n2)) := by
  rcases hmode with hm | ⟨hm, hno⟩
  · exact Or.inl hm
  · refine Or.inr ⟨hm, ?_⟩
    intro j hocc
    have hlift := occursAt_append_right xmlMarker (n0 ++ r1) (n1 ++ (r2 ++ n2)) j hocc
    rw [show (n0 ++ r1) ++ (n1 ++ (r2 ++ n2)) = n0 ++ (r1 ++ (n1 ++ (r2 ++ n2)))
      from List.append_assoc n0 r1 _] at hlift
    exact hno _ hlift

/-- Draining a window of the whole two-record stream
`n0 ++ (r1 ++ (n1 ++ (r2 ++ n2)))` emits exactly the records the window
covers. -/
theorem drain_stage1 (sm n0 r1 n1 r2 n2 : List Char) (hsm : IsStartMarker sm)
    (h0 : NoMarkers n0) (h1 : NoMarkers n1) (h2 : NoMarkers n2)
    (hpre1 : sm <+: r1) (hrend1 : firstIdx r1 endMarker = some (r1.length - 8))
    (hpre2 : sm <+: r2) (hrend2 : firstIdx r2 endMarker = some (r2.length - 8))
    (hmode : StartsResolve sm (n0 ++ (r1 ++ (n1 ++ (r2 ++ n2)))))
    (fuel q : Nat) (hfuel : q < fuel) :
    drainAux fuel ((n0 ++ (r1 ++ (n1 ++ (r2 ++ n2)))).take q) false =
      if n0.length + r1.length + n1.length + r2.length ≤ q then
        ([r1, r2], ((n0 ++ (r1 ++ (n1 ++ (r2 ++ n2)))).take q).drop
          (n0.length + r1.length + n1.length + r2.length))
      else if n0.length + r1.length ≤ q then
        ([r1], ((n0 ++ (r1 ++ (n1 ++ (r2 ++ n2)))).take q).drop
          (n0.length + r1.length))
      else ([], (n0 ++ (r1 ++ (n1 ++ (r2 ++ n2)))).take q) := by
  have h81 := endIdx_length_ge r1 hrend1
  have h82 := endIdx_length_ge r2 hrend2
  have hmode2 := startsResolve_tail sm n0 r1 n1 r2 n2 hmode
  by_cases hc1 : n0.length + r1.length ≤ q
  · cases fuel with
    | zero => omega
    | succ f =>
      rw [drainAux_emit f _ false _ r1
        (splitFunc_stage_complete sm n0 r1 (n1 ++ (r2 ++ n2)) hsm h0 hpre1 hrend1
          hmode q hc1)]
      have hb : (((n0 ++ (r1 ++ (n1 ++ (r2 ++ n2)))).take q)).drop
          (n0.length + r1.length) =
          (n1 ++ (r2 ++ n2)).take (q - (n0.length + r1.length)) := by
        rw [List.drop_take]
        congr 1
        rw [show n0 ++ (r1 ++ (n1 ++ (r2 ++ n2))) =
            (n0 ++ r1) ++ (n1 ++ (r2 ++ n2)) from by rw [List.append_assoc],
          show n0.length + r1.length = (n0 ++ r1).length from
            (List.length_append n0 r1).symm]
        exact List.drop_left _ _
      rw [hb, drain_stage2 sm n1 r2 n2 hsm h1 hpre2 hrend2 h2 hmode2 f _ (by omega)]
      by_cases hc2 : n1.length + r2.length ≤ q - (n0.length + r1.length)
      · rw [if_pos hc2, if_pos (show n0.length + r1.length + n1.length + r2.length ≤ q
          from by omega)]
        have hdd : ((n0 ++ (r1 ++ (n1 ++ (r2 ++ n2)))).take q).drop
            (n0.length + r1.length + n1.length + r2.length) =
            (((n0 ++ (r1 ++ (n1 ++ (r2 ++ n2)))).take q).drop
              (n0.length + r1.length)).drop (n1.length + r2.length) := by
          rw [List.drop_drop]
          congr 1
          omega
        rw [hdd, hb]
      · rw [if_neg hc2,
          if_neg (show ¬ (n0.length + r1.length + n1.length + r2.length ≤ q)
            from by omega),
          if_pos hc1]
  · rw [if_neg (show ¬ (n0.length + r1.length + n1.length + r2.length ≤ q)
      from by omega), if_neg hc1]
    exact drainAux_stop _ _ _
      (splitFunc_stage_incomplete sm n0 r1 (n1 ++ (r2 ++ n2)) hsm h0 hpre1 hrend1
        hmode q (by omega))

/-- The EOF round on a marker-free leftover buffer emits nothing. -/
theorem drain_eof_noise (m : List Char) (hm : NoMarkers m) (fuel : Nat)
    (hfuel : m.length < fuel) :
    (drainAux fuel m true).1 = [] := by
  cases fuel with
  | zero => omega
  | succ f =>
    by_cases hm0 : m.length = 0
    · rw [List.length_eq_zero.mp hm0]
      rw [drainAux_stop _ _ _ (by simp [splitFunc])]
    · have hsplit : splitFunc m true = (m.length, none) := by
        simp [splitFunc, hm.1, hm.2.1, hm0]
      rw [drainAux_skip f m true m.length hm0 hsplit, List.drop_length,
        drainAux_stop f [] true (by simp [splitFunc])]

/-- Proof bookkeeping: the number of stream bytes the scanner has consumed
once it has drained a buffer that ends at stream position `p` (with the
first record ending at `a2` and the second at `a4`). -/
def stageCut (a2 a4 p : Nat) : Nat :=
  if a4 ≤ p then a4 else if a2 ≤ p then a2 else 0

/-- Proof bookkeeping: the records the scanner emits while its processed
prefix of the stream grows from `p` to `q` bytes (the first record ends
at stream position `a2`, the second at `a4`). -/
def stageSpan (r1 r2 : List Char) (a2 a4 p q : Nat) : List (List Char) :=
  (if p < a2 ∧ a2 ≤ q then [r1] else []) ++
    (if p < a4 ∧ a4 ≤ q then [r2] else [])

theorem stageSpan_trans (r1 r2 : List Char) (a2 a4 p q s : Nat)
    (h1 : p ≤ q) (h2 : q ≤ s) (h24 : a2 ≤ a4) :
    stageSpan r1 r2 a2 a4 p q ++ stageSpan r1 r2 a2 a4 q s =
      stageSpan r1 r2 a2 a4 p s := by
  unfold stageSpan
  split_ifs <;> simp_all <;> omega

/-- One drain round: draining the buffer that covers stream positions
`[stageCut p, q)` emits exactly the records completed between `p` and `q`
and leaves the buffer cut at `stageCut q`. -/
theorem drain_step (sm n0 r1 n1 r2 n2 : List Char) (hsm : IsStartMarker sm)
    (h0 : NoMarkers n0) (h1 : NoMarkers n1) (h2 : NoMarkers n2)
    (hpre1 : sm <+: r1) (hrend1 : firstIdx r1 endMarker = some (r1.length - 8))
    (hpre2 : sm <+: r2) (hrend2 : firstIdx r2 endMarker = some (r2.length - 8))
    (hmode : StartsResolve sm (n0 ++ (r1 ++ (n1 ++ (r2 ++ n2)))))
    (p q : Nat) (hpq : p ≤ q)
    (hq : q ≤ (n0 ++ (r1 ++ (n1 ++ (r2 ++ n2)))).length) :
    drainAux ((((n0 ++ (r1 ++ (n1 ++ (r2 ++ n2)))).take q).drop
        (stageCut (n0.length + r1.length)
          (n0.length + r1.length + n1.length + r2.length) p)).length + 1)
      (((n0 ++ (r1 ++ (n1 ++ (r2 ++ n2)))).take q).drop
        (stageCut (n0.length + r1.length)
          (n0.length + r1.length + n1.length + r2.length) p)) false =
      (stageSpan r1 r2 (n0.length + r1.length)
          (n0.length + r1.length + n1.length + r2.length) p q,
        ((n0 ++ (r1 ++ (n1 ++ (r2 ++ n2)))).take q).drop
          (stageCut (n0.length + r1.length)
            (n0.length + r1.length + n1.length + r2.length) q)) := by
  have h81 := endIdx_length_ge r1 hrend1
  have h82 := endIdx_length_ge r2 hrend2
  have hmode2 := startsResolve_tail sm n0 r1 n1 r2 n2 hmode
  have hSlen : (n0 ++ (r1 ++ (n1 ++ (r2 ++ n2)))).length =
      n0.length + r1.length + n1.length + r2.length + n2.length := by
    simp only [List.length_append]
    omega
  have hT2len : (n1 ++ (r2 ++ n2)).length = n1.length + r2.length + n2.length := by
    simp only [List.length_append]
    omega
  have hdrop2 : (n0 ++ (r1 ++ (n1 ++ (r2 ++ n2)))).drop (n0.length + r1.length) =
      n1 ++ (r2 ++ n2) := by
    rw [show n0 ++ (r1 ++ (n1 ++ (r2 ++ n2))) =
        (n0 ++ r1) ++ (n1 ++ (r2 ++ n2)) from by rw [List.append_assoc],
      show n0.length + r1.length = (n0 ++ r1).length from
        (List.length_append n0 r1).symm]
    exact List.drop_left _ _
  have hdrop4 : (n0 ++ (r1 ++ (n1 ++ (r2 ++ n2)))).drop
      (n0.length + r1.length + n1.length + r2.length) = n2 := by
    rw [show n0 ++ (r1 ++ (n1 ++ (r2 ++ n2))) =
        (((n0 ++ r1) ++ n1) ++ r2) ++ n2 from by simp [List.append_assoc],
      show n0.length + r1.length + n1.length + r2.length =
        (((n0 ++ r1) ++ n1) ++ r2).length from by simp [List.length_append]; omega]
    exact List.drop_left _ _
  by_cases hc4 : n0.length + r1.length + n1.length + r2.length ≤ p
  · have hcutp : stageCut (n0.length + r1.length)
        (n0.length + r1.length + n1.length + r2.length) p =
        n0.length + r1.length + n1.length + r2.length := by
      unfold stageCut
      rw [if_pos hc4]
    have hcutq : stageCut (n0.length + r1.length)
        (n0.length + r1.length + n1.length + r2.length) q =
        n0.length + r1.length + n1.length + r2.length := by
      unfold stageCut
      rw [if_pos (by omega)]
    have hspan : stageSpan r1 r2 (n0.length + r1.length)
        (n0.length + r1.length + n1.length + r2.length) p q = [] := by
      unfold stageSpan
      rw [if_neg (by omega), if_neg (by omega)]
      rfl
    have hb4 : ((n0 ++ (r1 ++ (n1 ++ (r2 ++ n2)))).take q).drop
        (n0.length + r1.length + n1.length + r2.length) =
        n2.take (q - (n0.length + r1.length + n1.length + r2.length)) := by
      rw [List.drop_take, hdrop4]
    rw [hcutp, hcutq, hspan, hb4]
    exact drain_noise n2 h2 _ _
  · by_cases hc2 : n0.length + r1.length ≤ p
    · have hcutp : stageCut (n0.length + r1.length)
          (n0.length + r1.length + n1.length + r2.length) p =
          n0.length + r1.length := by
        unfold stageCut
        rw [if_neg hc4, if_pos hc2]
      have hb2 : ∀ x : Nat, ((n0 ++ (r1 ++ (n1 ++ (r2 ++ n2)))).take x).drop
          (n0.length + r1.length) =
          (n1 ++ (r2 ++ n2)).take (x - (n0.length + r1.length)) := by
        intro x
        rw [List.drop_take, hdrop2]
      rw [hcutp, hb2 q]
      rw [drain_stage2 sm n1 r2 n2 hsm h1 hpre2 hrend2 h2 hmode2
        (((n1 ++ (r2 ++ n2)).take (q - (n0.length + r1.length))).length + 1)
        (q - (n0.length + r1.length))
        (by rw [List.length_take]; omega)]
      by_cases hc4q : n0.length + r1.length + n1.length + r2.length ≤ q
      · rw [if_pos (show n1.length + r2.length ≤ q - (n0.length + r1.length)
          from by omega)]
        have hcutq : stageCut (n0.length + r1.length)
            (n0.length + r1.length + n1.length + r2.length) q =
            n0.length + r1.length + n1.length + r2.length := by
          unfold stageCut
          rw [if_pos hc4q]
        have hspan : stageSpan r1 r2 (n0.length + r1.length)
            (n0.length + r1.length + n1.length + r2.length) p q = [r2] := by
          unfold stageSpan
          rw [if_neg (by omega), if_pos (by omega)]
          rfl
        have hdd : ((n0 ++ (r1 ++ (n1 ++ (r2 ++ n2)))).take q).drop
            (n0.length + r1.length + n1.length + r2.length) =
            ((n1 ++ (r2 ++ n2)).take (q - (n0.length + r1.length))).drop
              (n1.length + r2.length) := by
          rw [← hb2 q, List.drop_drop]
          congr 1
          omega
        rw [hcutq, hspan, hdd]
      · rw [if_neg (show ¬ (n1.length + r2.length ≤ q - (n0.length + r1.length))
          from by omega)]
        have hcutq : stageCut (n0.length + r1.length)
            (n0.length + r1.length + n1.length + r2.length) q =
            n0.length + r1.length := by
          unfold stageCut
          rw [if_neg hc4q, if_pos (by omega)]
        have hspan : stageSpan r1 r2 (n0.length + r1.length)
            (n0.length + r1.length + n1.length + r2.length) p q = [] := by
          unfold stageSpan
          rw [if_neg (by omega), if_neg (by omega)]
          rfl
        rw [hcutq, hspan, hb2 q]
    · have hcutp : stageCut (n0.length + r1.length)
          (n0.length + r1.length + n1.length + r2.length) p = 0 := by
        unfold stageCut
        rw [if_neg hc4, if_neg hc2]
      rw [hcutp, List.drop_zero]
      rw [drain_stage1 sm n0 r1 n1 r2 n2 hsm h0 h1 h2 hpre1 hrend1 hpre2 hrend2
        hmode (((n0 ++ (r1 ++ (n1 ++ (r2 ++ n2)))).take q).length + 1) q
        (by rw [List.length_take]; omega)]
      by_cases hc4q : n0.length + r1.length + n1.length + r2.length ≤ q
      · rw [if_pos hc4q]
        have hcutq : stageCut (n0.length + r1.length)
            (n0.length + r1.length + n1.length + r2.length) q =
            n0.length + r1.length + n1.length + r2.length := by
          unfold stageCut
          rw [if_pos hc4q]
        have hspan : stageSpan r1 r2 (n0.length + r1.length)
            (n0.length + r1.length + n1.length + r2.length) p q = [r1, r2] := by
          unfold stageSpan
          rw [if_pos (by omega), if_pos (by omega)]
          rfl
        rw [hcutq, hspan]
      · by_cases hc2q : n0.length + r1.length ≤ q
        · rw [if_neg hc4q, if_pos hc2q]
          have hcutq : stageCut (n0.length + r1.length)
              (n0.length + r1.length + n1.length + r2.length) q =
              n0.length + r1.length := by
            unfold stageCut
            rw [if_neg (by omega), if_pos hc2q]
          have hspan : stageSpan r1 r2 (n0.length + r1.length)
              (n0.length + r1.length + n1.length + r2.length) p q = [r1] := by
            unfold stageSpan
            rw [if_pos (by omega), if_neg (by omega)]
            rfl
          rw [hcutq, hspan]
        · rw [if_neg hc4q, if_neg hc2q]
          have hcutq : stageCut (n0.length + r1.length)
              (n0.length + r1.length + n1.length + r2.length) q = 0 := by
            unfold stageCut
            rw [if_neg (by omega), if_neg (by omega)]
          have hspan : stageSpan r1 r2 (n0.length + r1.length)
              (n0.length + r1.length + n1.length + r2.length) p q = [] := by
            unfold stageSpan
            rw [if_neg (by omega), if_neg (by omega)]
            rfl
          rw [hcutq, hspan, List.drop_zero]

/-- Unfolding `feedAux` on an exhausted chunk. -/
theorem feedAux_nil (fuel : Nat) (tokens : List (List Char)) (buf : List Char) :
    feedAux (fuel + 1) tokens buf [] = ((tokens, buf), false) := by
  simp [feedAux]

/-- Unfolding `feedAux` on a nonempty chunk with free buffer space: one
read takes as much of the chunk as fits, drains, and recurses. -/
theorem feedAux_cons (fuel : Nat) (tokens : List (List Char)) (buf : List Char)
    (c : Char) (ct : List Char) (hlt : ¬ maxScanTokenSize ≤ buf.length) :
    feedAux (fuel + 1) tokens buf (c :: ct) =
      feedAux fuel
        (tokens ++ (drainAux
          ((buf ++ (c :: ct).take
            (min (maxScanTokenSize - buf.length) (c :: ct).length)).length + 1)
          (buf ++ (c :: ct).take
            (min (maxScanTokenSize - buf.length) (c :: ct).length)) false).1)
        (drainAux
          ((buf ++ (c :: ct).take
            (min (maxScanTokenSize - buf.length) (c :: ct).length)).length + 1)
          (buf ++ (c :: ct).take
            (min (maxScanTokenSize - buf.length) (c :: ct).length)) false).2
        ((c :: ct).drop (min (maxScanTokenSize - buf.length) (c :: ct).length)) := by
  simp [feedAux, hlt]

/-- The feed invariant: feeding a chunk that is the stream slice at
position `p` into the buffer cut at `stageCut p` never trips the 10 MB
cap (the whole stream is shorter than the cap), emits exactly the records
completed while the processed prefix grows past the chunk, and leaves the
buffer cut at the new position. -/
theorem feedAux_fold (sm n0 r1 n1 r2 n2 : List Char) (hsm : IsStartMarker sm)
    (h0 : NoMarkers n0) (h1 : NoMarkers n1) (h2 : NoMarkers n2)
    (hpre1 : sm <+: r1) (hrend1 : firstIdx r1 endMarker = some (r1.length - 8))
    (hpre2 : sm <+: r2) (hrend2 : firstIdx r2 endMarker = some (r2.length - 8))
    (hmode : StartsResolve sm (n0 ++ (r1 ++ (n1 ++ (r2 ++ n2)))))
    (hcap : (n0 ++ (r1 ++ (n1 ++ (r2 ++ n2)))).length < maxScanTokenSize) :
    ∀ (fuel : Nat) (chunk : List Char) (p : Nat) (acc : List (List Char)),
      chunk.length < fuel →
      p + chunk.length ≤ (n0 ++ (r1 ++ (n1 ++ (r2 ++ n2)))).length →
      chunk = ((n0 ++ (r1 ++ (n1 ++ (r2 ++ n2)))).drop p).take chunk.length →
      feedAux fuel acc
        (((n0 ++ (r1 ++ (n1 ++ (r2 ++ n2)))).take p).drop
          (stageCut (n0.length + r1.length)
            (n0.length + r1.length + n1.length + r2.length) p)) chunk =
      ((acc ++ stageSpan r1 r2 (n0.length + r1.length)
          (n0.length + r1.length + n1.length + r2.length) p (p + chunk.length),
        ((n0 ++ (r1 ++ (n1 ++ (r2 ++ n2)))).take (p + chunk.length)).drop
          (stageCut (n0.length + r1.length)
            (n0.length + r1.length + n1.length + r2.length) (p + chunk.length))),
        false) := by
  have h81 := endIdx_length_ge r1 hrend1
  have hSlen : (n0 ++ (r1 ++ (n1 ++ (r2 ++ n2)))).length =
      n0.length + r1.length + n1.length + r2.length + n2.length := by
    simp only [List.length_append]
    omega
  intro fuel
  induction fuel with
  | zero =>
    intro chunk p acc hfuel hple hch
    exact absurd hfuel (by omega)
  | succ f ih =>
    intro chunk p acc hfuel hple hch
    cases chunk with
    | nil =>
      have hspan : stageSpan r1 r2 (n0.length + r1.length)
          (n0.length + r1.length + n1.length + r2.length) p p = [] := by
        unfold stageSpan
        rw [if_neg (by omega), if_neg (by omega)]
        rfl
      simp only [List.length_nil, Nat.add_zero]
      rw [hspan, List.append_nil, feedAux_nil]
    | cons c ct =>
      have hclen : (c :: ct).length = ct.length + 1 := List.length_cons c ct
      have hlen : ((n0 ++ (r1 ++ (n1 ++ (r2 ++ n2)))).take p).length = p := by
        rw [List.length_take]
        omega
      have hcutle : stageCut (n0.length + r1.length)
          (n0.length + r1.length + n1.length + r2.length) p ≤
          ((n0 ++ (r1 ++ (n1 ++ (r2 ++ n2)))).take p).length := by
        rw [hlen]
        unfold stageCut
        split_ifs <;> omega
      have hblt : ¬ maxScanTokenSize ≤
          ((((n0 ++ (r1 ++ (n1 ++ (r2 ++ n2)))).take p).drop
            (stageCut (n0.length + r1.length)
              (n0.length + r1.length + n1.length + r2.length) p)).length) := by
        rw [List.length_drop, hlen]
        omega
      rw [feedAux_cons f acc _ c ct hblt]
      set n := min (maxScanTokenSize -
          ((((n0 ++ (r1 ++ (n1 ++ (r2 ++ n2)))).take p).drop
            (stageCut (n0.length + r1.length)
              (n0.length + r1.length + n1.length + r2.length) p)).length))
          (c :: ct).length with hn
      have hn1 : 1 ≤ n := by
        rw [hn]
        omega
      have hn2 : n ≤ (c :: ct).length := by
        rw [hn]
        omega
      have hchtake : (c :: ct).take n =
          ((n0 ++ (r1 ++ (n1 ++ (r2 ++ n2)))).drop p).take n := by
        conv_lhs => rw [hch]
        rw [List.take_take, min_eq_left hn2]
      have hchdrop : (c :: ct).drop n =
          ((n0 ++ (r1 ++ (n1 ++ (r2 ++ n2)))).drop (p + n)).take
            ((c :: ct).length - n) := by
        conv_lhs => rw [hch]
        rw [List.drop_take, List.drop_drop]
      have hbuf2 : (((n0 ++ (r1 ++ (n1 ++ (r2 ++ n2)))).take p).drop
            (stageCut (n0.length + r1.length)
              (n0.length + r1.length + n1.length + r2.length) p)) ++
            (c :: ct).take n =
          ((n0 ++ (r1 ++ (n1 ++ (r2 ++ n2)))).take (p + n)).drop
            (stageCut (n0.length + r1.length)
              (n0.length + r1.length + n1.length + r2.length) p) := by
        rw [List.take_add, List.drop_append_of_le_length hcutle, hchtake]
      rw [hbuf2]
      rw [drain_step sm n0 r1 n1 r2 n2 hsm h0 h1 h2 hpre1 hrend1 hpre2 hrend2 hmode
        p (p + n) (by omega) (by omega)]
      dsimp only
      have hih := ih ((c :: ct).drop n) (p + n)
        (acc ++ stageSpan r1 r2 (n0.length + r1.length)
          (n0.length + r1.length + n1.length + r2.length) p (p + n))
        (by rw [List.length_drop]; omega)
        (by rw [List.length_drop]; omega)
        (by rw [List.length_drop]; exact hchdrop)
      rw [hih, List.length_drop]
      rw [show p + n + ((c :: ct).length - n) = p + (c :: ct).length from by omega]
      rw [List.append_assoc, stageSpan_trans r1 r2 (n0.length + r1.length)
        (n0.length + r1.length + n1.length + r2.length) p (p + n)
        (p + (c :: ct).length) (by omega) (by omega) (by omega)]

/-- The scanner fold invariant: feeding the chunks of the tail of the
stream (from position `p`) into the buffer cut at `stageCut p` never
raises `ErrTooLong` and accumulates exactly the records completed after
`p`. -/
theorem scan_fold (sm n0 r1 n1 r2 n2 : List Char) (hsm : IsStartMarker sm)
    (h0 : NoMarkers n0) (h1 : NoMarkers n1) (h2 : NoMarkers n2)
    (hpre1 : sm <+: r1) (hrend1 : firstIdx r1 endMarker = some (r1.length - 8))
    (hpre2 : sm <+: r2) (hrend2 : firstIdx r2 endMarker = some (r2.length - 8))
    (hmode : StartsResolve sm (n0 ++ (r1 ++ (n1 ++ (r2 ++ n2)))))
    (hcap : (n0 ++ (r1 ++ (n1 ++ (r2 ++ n2)))).length < maxScanTokenSize) :
    ∀ (cs : List (List Char)) (p : Nat) (acc : List (List Char)),
      p ≤ (n0 ++ (r1 ++ (n1 ++ (r2 ++ n2)))).length →
      cs.flatten = (n0 ++ (r1 ++ (n1 ++ (r2 ++ n2)))).drop p →
      cs.foldl
        (fun (acc : (List (List Char) × List Char) × Bool) chunk =>
          if acc.2 then acc else feedAux (chunk.length + 1) acc.1.1 acc.1.2 chunk)
        ((acc, ((n0 ++ (r1 ++ (n1 ++ (r2 ++ n2)))).take p).drop
          (stageCut (n0.length + r1.length)
            (n0.length + r1.length + n1.length + r2.length) p)), false) =
      ((acc ++ stageSpan r1 r2 (n0.length + r1.length)
          (n0.length + r1.length + n1.length + r2.length) p
          (n0 ++ (r1 ++ (n1 ++ (r2 ++ n2)))).length,
        ((n0 ++ (r1 ++ (n1 ++ (r2 ++ n2)))).take
            (n0 ++ (r1 ++ (n1 ++ (r2 ++ n2)))).length).drop
          (stageCut (n0.length + r1.length)
            (n0.length + r1.length + n1.length + r2.length)
            (n0 ++ (r1 ++ (n1 ++ (r2 ++ n2)))).length)), false) := by
  intro cs
  induction cs with
  | nil =>
    intro p acc hp hflat
    have hpe : p = (n0 ++ (r1 ++ (n1 ++ (r2 ++ n2)))).length := by
      have hlen := congrArg List.length hflat
      rw [List.flatten_nil, List.length_drop] at hlen
      simp only [List.length_nil] at hlen
      omega
    subst hpe
    rw [List.foldl_nil]
    have hspan : stageSpan r1 r2 (n0.length + r1.length)
        (n0.length + r1.length + n1.length + r2.length)
        (n0 ++ (r1 ++ (n1 ++ (r2 ++ n2)))).length
        (n0 ++ (r1 ++ (n1 ++ (r2 ++ n2)))).length = [] := by
      unfold stageSpan
      rw [if_neg (by omega), if_neg (by omega)]
      rfl
    rw [hspan, List.append_nil]
  | cons ch cs' ih =>
    intro p acc hp hflat
    rw [List.flatten_cons] at hflat
    have hqre : ch <+: (n0 ++ (r1 ++ (n1 ++ (r2 ++ n2)))).drop p :=
      ⟨cs'.flatten, hflat⟩
    have hch : ch = ((n0 ++ (r1 ++ (n1 ++ (r2 ++ n2)))).drop p).take ch.length :=
      List.prefix_iff_eq_take.mp hqre
    have hchle : ch.length ≤ (n0 ++ (r1 ++ (n1 ++ (r2 ++ n2)))).length - p := by
      have hl := hqre.length_le
      rw [List.length_drop] at hl
      exact hl
    have hp'le : p + ch.length ≤ (n0 ++ (r1 ++ (n1 ++ (r2 ++ n2)))).length := by
      omega
    have hflat' : cs'.flatten = (n0 ++ (r1 ++ (n1 ++ (r2 ++ n2)))).drop
        (p + ch.length) := by
      have hx : cs'.flatten =
          ((n0 ++ (r1 ++ (n1 ++ (r2 ++ n2)))).drop p).drop ch.length := by
        rw [← hflat, List.drop_left]
      rw [hx, List.drop_drop]
    rw [List.foldl_cons]
    dsimp only
    rw [if_neg Bool.false_ne_true]
    rw [feedAux_fold sm n0 r1 n1 r2 n2 hsm h0 h1 h2 hpre1 hrend1 hpre2 hrend2
      hmode hcap (ch.length + 1) ch p acc (Nat.lt_succ_self _) hp'le hch]
    rw [ih (p + ch.length)
      (acc ++ stageSpan r1 r2 (n0.length + r1.length)
        (n0.length + r1.length + n1.length + r2.length) p (p + ch.length))
      hp'le hflat']
    rw [List.append_assoc, stageSpan_trans r1 r2 (n0.length + r1.length)
      (n0.length + r1.length + n1.length + r2.length) p (p + ch.length)
      (n0 ++ (r1 ++ (n1 ++ (r2 ++ n2)))).length (by omega) (by omega) (by omega)]

/-- The whole scanner run on a two-record stream shorter than the 10 MB
cap, for either start marker: every read fits in the buffer, the error
flag never trips, and exactly the two records come out. -/
theorem framer_records_core (sm n0 r1 n1 r2 n2 : List Char)
    (chunks : List (List Char)) (hsm : IsStartMarker sm)
    (h0 : NoMarkers n0) (h1 : NoMarkers n1) (h2 : NoMarkers n2)
    (hpre1 : sm <+: r1) (hrend1 : firstIdx r1 endMarker = some (r1.length - 8))
    (hpre2 : sm <+: r2) (hrend2 : firstIdx r2 endMarker = some (r2.length - 8))
    (hmode : StartsResolve sm (n0 ++ (r1 ++ (n1 ++ (r2 ++ n2)))))
    (hcap : (n0 ++ (r1 ++ (n1 ++ (r2 ++ n2)))).length < maxScanTokenSize)
    (hchunks : chunks.flatten = n0 ++ (r1 ++ (n1 ++ (r2 ++ n2)))) :
    scanChunks chunks = [r1, r2] := by
  have h81 := endIdx_length_ge r1 hrend1
  have h82 := endIdx_length_ge r2 hrend2
  have hSlen : (n0 ++ (r1 ++ (n1 ++ (r2 ++ n2)))).length =
      n0.length + r1.length + n1.length + r2.length + n2.length := by
    simp only [List.length_append]
    omega
  have hdrop4 : (n0 ++ (r1 ++ (n1 ++ (r2 ++ n2)))).drop
      (n0.length + r1.length + n1.length + r2.length) = n2 := by
    rw [show n0 ++ (r1 ++ (n1 ++ (r2 ++ n2))) =
        (((n0 ++ r1) ++ n1) ++ r2) ++ n2 from by simp [List.append_assoc],
      show n0.length + r1.length + n1.length + r2.length =
        (((n0 ++ r1) ++ n1) ++ r2).length from by simp [List.length_append]; omega]
    exact List.drop_left _ _
  have hcut0 : stageCut (n0.length + r1.length)
      (n0.length + r1.length + n1.length + r2.length) 0 = 0 := by
    unfold stageCut
    rw [if_neg (by omega), if_neg (by omega)]
  have hcutS : stageCut (n0.length + r1.length)
      (n0.length + r1.length + n1.length + r2.length)
      (n0 ++ (r1 ++ (n1 ++ (r2 ++ n2)))).length =
      n0.length + r1.length + n1.length + r2.length := by
    unfold stageCut
    rw [if_pos (by omega)]
  have hspan : stageSpan r1 r2 (n0.length + r1.length)
      (n0.length + r1.length + n1.length + r2.length) 0
      (n0 ++ (r1 ++ (n1 ++ (r2 ++ n2)))).length = [r1, r2] := by
    unfold stageSpan
    rw [if_pos (by omega), if_pos (by omega)]
    rfl
  have hfold := scan_fold sm n0 r1 n1 r2 n2 hsm h0 h1 h2 hpre1 hrend1 hpre2 hrend2
    hmode hcap chunks 0 [] (Nat.zero_le _) (by simpa using hchunks)
  rw [hcut0, hcutS, hspan, List.take_length, hdrop4] at hfold
  simp only [List.take_zero, List.drop_nil, List.nil_append] at hfold
  unfold scanChunks
  rw [hfold]
  dsimp only
  rw [if_neg Bool.false_ne_true,
    if_neg (show ¬ maxScanTokenSize ≤ n2.length from by omega),
    drain_eof_noise n2 h2 (n2.length + 1) (Nat.lt_succ_self _), List.append_nil]

/-! ### C9: the stream framer -/

/-- C9 counterexample: the claim quantifies over records bounded by either
accepted start marker.  For the single-chunk stream consisting of a
well-formed `"<plist"`-started record followed by a well-formed
`"<?xml"`-started record, the framer emits only ONE RawSample (the second
record): the split function searches the whole buffer for `"<?xml"`
first, finds the second record's start, and discards the first record as
if it were noise.  The claim's "exactly two RawSamples, regardless of
chunking" is false. -/
theorem framer_two_records_counterexample :
    scanChunks ["<plist>A</plist><?xmlB</plist>".data] = ["<?xmlB</plist>".data] ∧
      scanChunks ["<plist>A</plist><?xmlB</plist>".data] ≠
        ["<plist>A</plist>".data, "<?xmlB</plist>".data] := by
  constructor
  · decide
  · decide

/-- C9 amended: for every byte stream `n0 ++ r1 ++ n1 ++ r2 ++ n2` of two
well-formed records (the end marker occurring exactly once in each, as
the record's final 8 bytes) amid noise free of marker occurrences, where
either both records start with `"<?xml"`, or both start with `"<plist"`
and `"<?xml"` occurs in neither record, and whose total length is below
the scanner's 10 MB buffer cap (`scanner.Buffer(make([]byte, bufferSize),
bufferSize)`), and for EVERY way of splitting the stream into read
chunks, the framer emits exactly two RawSamples, byte-identical (markers
inclusive) to the two records; the noise never produces a RawSample.
(The same-marker restriction is forced by the counterexample: a
`"<plist"`-started record sharing a buffer with a later `"<?xml"`-started
record is swallowed.  The cap hypothesis is forced by
`bufio.ErrTooLong`: a stream whose unconsumed marker-free content reaches
10 MB makes `Scan` fail and the framer emits nothing further.) -/
theorem framer_two_records (n0 r1 n1 r2 n2 : List Char)
    (chunks : List (List Char))
    (h0 : NoMarkers n0) (h1 : NoMarkers n1) (h2 : NoMarkers n2)
    (hrend1 : firstIdx r1 endMarker = some (r1.length - 8))
    (hrend2 : firstIdx r2 endMarker = some (r2.length - 8))
    (hmode : (xmlMarker <+: r1 ∧ xmlMarker <+: r2) ∨
      (plistMarker <+: r1 ∧ plistMarker <+: r2 ∧
        firstIdx r1 xmlMarker = none ∧ firstIdx r2 xmlMarker = none))
    (hcap : (n0 ++ (r1 ++ (n1 ++ (r2 ++ n2)))).length < maxScanTokenSize)
    (hchunks : chunks.flatten = n0 ++ (r1 ++ (n1 ++ (r2 ++ n2)))) :
    scanChunks chunks = [r1, r2] := by
  rcases hmode with ⟨hp1, hp2⟩ | ⟨hp1, hp2, hx1, hx2⟩
  · exact framer_records_core xmlMarker n0 r1 n1 r2 n2 chunks isStartMarker_xml
      h0 h1 h2 hp1 hrend1 hp2 hrend2 (Or.inl rfl) hcap hchunks
  · exact framer_records_core plistMarker n0 r1 n1 r2 n2 chunks isStartMarker_plist
      h0 h1 h2 hp1 hrend1 hp2 hrend2
      (Or.inr ⟨rfl, no_xml_in_stream n0 r1 n1 r2 n2 h0 h1 h2 hp1 hrend1 hp2 hrend2
        hx1 hx2⟩)
      hcap hchunks

/-- C9 witness: the `"<?xml"`-mode stream
`"noise" ++ "<?xmlA</plist>" ++ "x" ++ "<?xmlBB</plist>" ++ "zz"`
delivered in four chunks that split both records across chunk boundaries
yields exactly the two records, and the `"<plist"`-mode stream
`"<plist>A</plist>" ++ "<plist>B</plist>"` delivered in three chunks
yields exactly its two records. -/
theorem framer_two_records_witness :
    scanChunks ["no".data, "ise<?xmlA</pl".data, "ist>x<?xmlBB</pli".data,
        "st>zz".data] =
      ["<?xmlA</plist>".data, "<?xmlBB</plist>".data] ∧
    scanChunks ["<pli".data, "st>A</plist><plist>B</pl".data, "ist>".data] =
      ["<plist>A</plist>".data, "<plist>B</plist>".data] := by
  constructor
  · apply framer_two_records "noise".data "<?xmlA</plist>".data "x".data
      "<?xmlBB</plist>".data "zz".data
    · exact ⟨by decide, by decide, by decide⟩
    · exact ⟨by decide, by decide, by decide⟩
    · exact ⟨by decide, by decide, by decide⟩
    · decide
    · decide
    · exact Or.inl ⟨by decide, by decide⟩
    · decide
    · decide
  · apply framer_two_records "".data "<plist>A</plist>".data "".data
      "<plist>B</plist>".data "".data
    · exact ⟨by decide, by decide, by decide⟩
    · exact ⟨by decide, by decide, by decide⟩
    · exact ⟨by decide, by decide, by decide⟩
    · decide
    · decide
    · exact Or.inr ⟨by decide, by decide, by decide, by decide⟩
    · decide
    · decide

end Mactop
